import Mathlib

/-!
Verification of the credential-gating reverse proxy implemented in
src/keychain-agentauth.ts.  The TypeScript source is shallowly embedded:
strings are Lean strings (manipulated through their character lists),
JavaScript BigInt values are Nat (all values in play are below 2^128),
stateful request handling is a pure function from a request plus an
environment (keystore oracle, upstream fetch oracle, clock) to an outcome
record holding the response state, the log lines and the ordered trace of
externally visible effects.
-/

namespace TheSystem

/-! ## JavaScript string primitives

Character-list implementations of the JS string operations used by the
source: split on a character, split on the two-character separator "::",
startsWith, prefix removal, padStart(4, zero), trim, parseInt with radix
16 and 10, and String(n) for numbers. -/

def isDigitChar (c : Char) : Bool :=
  48 ≤ c.toNat && c.toNat ≤ 57

def isHexDigitChar (c : Char) : Bool :=
  (48 ≤ c.toNat && c.toNat ≤ 57) || (97 ≤ c.toNat && c.toNat ≤ 102) ||
    (65 ≤ c.toNat && c.toNat ≤ 70)

def hexDigitVal (c : Char) : Nat :=
  if 48 ≤ c.toNat && c.toNat ≤ 57 then c.toNat - 48
  else if 97 ≤ c.toNat && c.toNat ≤ 102 then c.toNat - 97 + 10
  else if 65 ≤ c.toNat && c.toNat ≤ 70 then c.toNat - 65 + 10
  else 0

/-- JS `s.split(c)` for a single-character separator: always returns at
least one (possibly empty) segment. -/
def jsSplitChar (c : Char) : List Char → List (List Char)
  | [] => [[]]
  | x :: xs =>
    match jsSplitChar c xs with
    | [] => [[x]]
    | h :: t => if x = c then [] :: h :: t else (x :: h) :: t

/-- JS `s.split("::")`: split on each non-overlapping occurrence of two
consecutive colons, scanning left to right. -/
def splitColonColon : List Char → List (List Char)
  | [] => [[]]
  | [x] => [[x]]
  | x :: y :: rest =>
    if x = ':' && y = ':' then [] :: splitColonColon rest
    else
      match splitColonColon (y :: rest) with
      | [] => [[x]]
      | h :: t => (x :: h) :: t

/-- JS `s.includes("::")`. -/
def hasColonColon : List Char → Bool
  | [] => false
  | [_] => false
  | x :: y :: rest => (x = ':' && y = ':') || hasColonColon (y :: rest)

def startsWithChars : List Char → List Char → Bool
  | [], _ => true
  | _ :: _, [] => false
  | p :: ps, x :: xs => p = x && startsWithChars ps xs

/-- Remove a leading occurrence of `p`; `none` when `l` does not start
with `p`. -/
def dropChars : List Char → List Char → Option (List Char)
  | [], l => some l
  | _ :: _, [] => none
  | p :: ps, x :: xs => if p = x then dropChars ps xs else none

/-- JS `part.padStart(4, zero)`. -/
def padStart4 (l : List Char) : List Char :=
  List.replicate (4 - l.length) '0' ++ l

def intercalateChar (c : Char) : List (List Char) → List Char
  | [] => []
  | [x] => x
  | x :: xs => x ++ c :: intercalateChar c xs

def isJsTrimWs (c : Char) : Bool :=
  c = ' ' || c = '\t' || c = '\n' || c = '\r' || c = '\x0b' || c = '\x0c'

/-- JS `s.trim()` over the whitespace the keystore outputs contain. -/
def jsTrim (s : String) : String :=
  ⟨((s.data.dropWhile isJsTrimWs).reverse.dropWhile isJsTrimWs).reverse⟩

/-- JS `parseInt(s, 16)`: parse the longest leading run of hexadecimal
digits; `none` models NaN (no leading digit), which makes the subsequent
`BigInt(...)` conversion in the source throw.  Call sites in the embedded
code only feed this strings made of hex digits and dots, so sign handling
and the optional 0x marker of the full JS semantics are not modelled. -/
def jsParseIntHex (l : List Char) : Option Nat :=
  match l.takeWhile isHexDigitChar with
  | [] => none
  | ds => some (ds.foldl (fun acc c => acc * 16 + hexDigitVal c) 0)

/-- JS `parseInt(s, 10)` restricted to the digit-only strings the source
feeds it (CIDR prefix lengths). -/
def jsParseIntDec (l : List Char) : Option Nat :=
  match l.takeWhile isDigitChar with
  | [] => none
  | ds => some (ds.foldl (fun acc c => acc * 10 + hexDigitVal c) 0)

/-- Decimal value of a digit-only character list (used below the
`net.isIPv4` guard, where every part is a plain decimal numeral). -/
def decimalVal (l : List Char) : Nat :=
  l.foldl (fun acc c => acc * 10 + hexDigitVal c) 0

/-! ## Node `net.isIPv4` / `net.isIPv6`

Modelled from the Node standard library (an external collaborator of the
source file): `isIPv4` accepts exactly the strict dotted quads (four
parts, 1-3 decimal digits each, value at most 255, no leading zero), and
`isIPv6` accepts the RFC 4291 textual forms: hex groups of 1-4 digits,
at most one "::" compression, and an optional embedded dotted quad as the
final group. -/

def validOctet (l : List Char) : Bool :=
  l ≠ [] && l.length ≤ 3 && l.all isDigitChar &&
    (l.length = 1 || l.headD '0' ≠ '0') && decimalVal l ≤ 255

def netIsIPv4 (s : String) : Bool :=
  match jsSplitChar '.' s.data with
  | [a, b, c, d] => validOctet a && validOctet b && validOctet c && validOctet d
  | _ => false

def validHexGroup (l : List Char) : Bool :=
  l ≠ [] && l.length ≤ 4 && l.all isHexDigitChar

/-- Group-equivalent count of a segment list whose final group may be an
embedded dotted quad (worth two 16-bit groups); `none` when some group is
invalid. -/
def groupCount : List (List Char) → Option Nat
  | [] => some 0
  | [g] =>
    if g.contains '.' then (if netIsIPv4 ⟨g⟩ then some 2 else none)
    else (if validHexGroup g then some 1 else none)
  | g :: rest =>
    if validHexGroup g then (groupCount rest).map (· + 1) else none

def netIsIPv6 (s : String) : Bool :=
  let l := s.data
  if hasColonColon l then
    match splitColonColon l with
    | [left, right] =>
      let leftParts := if left = [] then [] else jsSplitChar ':' left
      let rightParts := if right = [] then [] else jsSplitChar ':' right
      match groupCount leftParts, groupCount rightParts with
      | some a, some b =>
        -- an embedded quad must terminate the whole address, so it cannot
        -- sit on the left of the "::" compression
        decide (a + b ≤ 7) && !(leftParts.any (·.contains '.'))
      | _, _ => false
    | _ => false
  else
    match groupCount (jsSplitChar ':' l) with
    | some n => decide (n = 8)
    | none => false

/-! ## CIDR allowlist (lines 17-88 of the source) -/

structure CIDRRange where
  addr : Nat
  mask : Nat
  bits : Nat
deriving Repr, DecidableEq

/-- `ipToBigInt(ip, false)`: dotted-quad path.  The JS expression
`BigInt((p0<<24)|(p1<<16)|(p2<<8)|p3) & 0xFFFFFFFFn` reduces to this or
of shifted part values for the digit-only parts produced below the
`net.isIPv4` guard and in the fixed CIDR list. -/
def ipToBigIntV4 (s : String) : Nat :=
  match jsSplitChar '.' s.data with
  | [a, b, c, d] =>
    ((decimalVal a <<< 24) ||| (decimalVal b <<< 16) |||
      (decimalVal c <<< 8) ||| decimalVal d) % 2 ^ 32
  | _ => 0

/-- `expandIPv6` (lines 52-62). -/
def expandIPv6 (s : String) : String :=
  let l := s.data
  if hasColonColon l then
    let left := (splitColonColon l).headD []
    let right := (splitColonColon l).tail.headD []
    let leftParts := if left = [] then [] else jsSplitChar ':' left
    let rightParts := if right = [] then [] else jsSplitChar ':' right
    let missing := 8 - leftParts.length - rightParts.length
    let mid := List.replicate missing ['0']
    ⟨intercalateChar ':' ((leftParts ++ mid ++ rightParts).map padStart4)⟩
  else
    ⟨intercalateChar ':' ((jsSplitChar ':' l).map padStart4)⟩

/-- `ipToBigInt(ip, true)`: expand when `net.isIPv6` accepts the string,
split on colons, parse each part as hex and fold with 16-bit shifts;
`none` models the thrown `BigInt(NaN)` on a non-numeric part. -/
def ipToBigIntV6 (s : String) : Option Nat :=
  let full := if netIsIPv6 s then expandIPv6 s else s
  (jsSplitChar ':' full.data).foldlM
    (fun acc part => (jsParseIntHex part).map (fun v => (acc <<< 16) ||| v)) 0

/-- `parseCIDR` (lines 26-35).  The fixed list below is its only caller;
every entry parses without a thrown exception, so the v6 value is read
with a default that is never used. -/
def parseCIDR (cidr : String) : CIDRRange :=
  let parts := jsSplitChar '/' cidr.data
  let ip : String := ⟨parts.headD []⟩
  let prefixLen := (jsParseIntDec (parts.tail.headD [])).getD 0
  let isV6 := ip.data.contains ':'
  let bits := if isV6 then 128 else 32
  let addr := if isV6 then (ipToBigIntV6 ip).getD 0 else ipToBigIntV4 ip
  let mask :=
    if bits = prefixLen then 2 ^ bits - 1
    else (2 ^ bits - 1) ^^^ (2 ^ (bits - prefixLen) - 1)
  ⟨addr, mask, bits⟩

def ALLOWED_CIDRS : List String :=
  ["127.0.0.0/8", "::1/128", "::ffff:127.0.0.0/104",
   "10.0.0.0/8", "192.168.0.0/16", "172.16.0.0/12"]

def allowedRanges : List CIDRRange := ALLOWED_CIDRS.map parseCIDR

/-- `clientIP.replace(/^::ffff:/, '')`. -/
def dropMappedV6 (s : String) : String :=
  match dropChars "::ffff:".data s.data with
  | some rest => ⟨rest⟩
  | none => s

/-- Body of the `for (const range of allowedRanges)` loop (lines 74-86);
the per-iteration try/catch that skips a range on a thrown `BigInt(NaN)`
is the `none` branch of the v6 parse. -/
def rangeMatches (raw s : String) (isV4 v6cond : Bool) (r : CIDRRange) : Bool :=
  if isV4 && r.bits == 32 then
    (ipToBigIntV4 raw) &&& r.mask == r.addr &&& r.mask
  else if v6cond && r.bits == 128 then
    match ipToBigIntV6 s with
    | some a => a &&& r.mask == r.addr &&& r.mask
    | none => false
  else false

/-- `isAllowedIP` (lines 66-88). -/
def isAllowedIP (clientIP : String) : Bool :=
  if clientIP == "" then false
  else
    let raw := dropMappedV6 clientIP
    let isV4 := netIsIPv4 raw
    let v6cond := netIsIPv6 clientIP || startsWithChars "::ffff:".data clientIP.data
    allowedRanges.any (rangeMatches raw clientIP isV4 v6cond)

/-! ## JSON (environment model for `JSON.parse` / `JSON.stringify`)

Number literals are kept verbatim rather than re-rendered as IEEE
doubles, and object fields keep parse order (JS reorders integer-like
keys); neither difference is exercised by the claims. -/

inductive Json where
  | null
  | bool (b : Bool)
  | num (lit : String)
  | str (s : String)
  | arr (elems : List Json)
  | obj (fields : List (String × Json))
deriving Inhabited

def isJsonWs (c : Char) : Bool :=
  c = ' ' || c = '\t' || c = '\n' || c = '\r'

def skipWs (l : List Char) : List Char := l.dropWhile isJsonWs

/-- Property assignment semantics of building the parsed object: a
repeated key keeps its first position and takes the last value. -/
def setField (fields : List (String × Json)) (k : String) (v : Json) :
    List (String × Json) :=
  if fields.any (·.1 == k) then
    fields.map (fun kv => if kv.1 == k then (k, v) else kv)
  else fields ++ [(k, v)]

def parseHex4 (l : List Char) : Option (Nat × List Char) :=
  match l with
  | a :: b :: c :: d :: rest =>
    if isHexDigitChar a && isHexDigitChar b && isHexDigitChar c && isHexDigitChar d then
      some (((hexDigitVal a * 16 + hexDigitVal b) * 16 + hexDigitVal c) * 16
        + hexDigitVal d, rest)
    else none
  | _ => none

def parseJsonString (fuel : Nat) (l : List Char) : Option (String × List Char) :=
  match fuel, l with
  | 0, _ => none
  | _, [] => none
  | fuel + 1, c :: rest =>
    if c = '"' then some ("", rest)
    else if c = '\\' then
      match rest with
      | [] => none
      | e :: rest2 =>
        let cont (decoded : Char) (after : List Char) : Option (String × List Char) :=
          (parseJsonString fuel after).map (fun (s, r) => (⟨decoded :: s.data⟩, r))
        if e = '"' then cont '"' rest2
        else if e = '\\' then cont '\\' rest2
        else if e = '/' then cont '/' rest2
        else if e = 'b' then cont '\x08' rest2
        else if e = 'f' then cont '\x0c' rest2
        else if e = 'n' then cont '\n' rest2
        else if e = 'r' then cont '\r' rest2
        else if e = 't' then cont '\t' rest2
        else if e = 'u' then
          -- lone UTF-16 surrogates are not representable as Char; none of
          -- the claims exercise them
          match parseHex4 rest2 with
          | some (n, rest3) => cont (Char.ofNat n) rest3
          | none => none
        else none
    else if c.toNat < 32 then none
    else (parseJsonString fuel rest).map (fun (s, r) => (⟨c :: s.data⟩, r))

/-- JSON number grammar: `-? (0 | [1-9][0-9]*) (. [0-9]+)? ([eE][+-]?[0-9]+)?`,
returned as the literal text. -/
def parseJsonNumber (l : List Char) : Option (String × List Char) :=
  let (sign, l1) := if l.headD ' ' = '-' then (['-'], l.tail) else ([], l)
  let intPart := l1.takeWhile isDigitChar
  let l2 := l1.dropWhile isDigitChar
  if intPart = [] then none
  else if intPart.length > 1 && intPart.headD ' ' = '0' then none
  else
    let (frac, l3) :=
      if l2.headD ' ' = '.' then
        let ds := l2.tail.takeWhile isDigitChar
        if ds = [] then ([' '], l2) else ('.' :: ds, l2.tail.dropWhile isDigitChar)
      else ([], l2)
    if frac = [' '] then none
    else
      let (ex, l4) :=
        if l3.headD ' ' = 'e' || l3.headD ' ' = 'E' then
          let e := l3.headD ' '
          let l3a := l3.tail
          let (s, l3b) :=
            if l3a.headD ' ' = '+' || l3a.headD ' ' = '-' then
              ([l3a.headD ' '], l3a.tail)
            else ([], l3a)
          let ds := l3b.takeWhile isDigitChar
          if ds = [] then ([' '], l3) else (e :: s ++ ds, l3b.dropWhile isDigitChar)
        else ([], l3)
      if ex = [' '] then none
      else some (⟨sign ++ intPart ++ frac ++ ex⟩, l4)

mutual

def parseJsonValue (fuel : Nat) (l : List Char) : Option (Json × List Char) :=
  match fuel with
  | 0 => none
  | fuel + 1 =>
    let l := skipWs l
    match l with
    | [] => none
    | c :: rest =>
      if c = 'n' then
        (dropChars "ull".data rest).map (fun r => (.null, r))
      else if c = 't' then
        (dropChars "rue".data rest).map (fun r => (.bool true, r))
      else if c = 'f' then
        (dropChars "alse".data rest).map (fun r => (.bool false, r))
      else if c = '"' then
        (parseJsonString fuel rest).map (fun (s, r) => (.str s, r))
      else if c = '\x7b' then
        match skipWs rest with
        | '\x7d' :: r => some (.obj [], r)
        | r => (parseJsonMembers fuel r []).map (fun (fs, r2) => (.obj fs, r2))
      else if c = '[' then
        match skipWs rest with
        | ']' :: r => some (.arr [], r)
        | r => (parseJsonElements fuel r).map (fun (es, r2) => (.arr es, r2))
      else
        (parseJsonNumber l).map (fun (s, r) => (.num s, r))

def parseJsonMembers (fuel : Nat) (l : List Char) (acc : List (String × Json)) :
    Option (List (String × Json) × List Char) :=
  match fuel with
  | 0 => none
  | fuel + 1 =>
    match skipWs l with
    | '"' :: r =>
      match parseJsonString fuel r with
      | none => none
      | some (k, r2) =>
        match skipWs r2 with
        | ':' :: r3 =>
          match parseJsonValue fuel r3 with
          | none => none
          | some (v, r4) =>
            match skipWs r4 with
            | ',' :: r5 => parseJsonMembers fuel r5 (setField acc k v)
            | '\x7d' :: r5 => some (setField acc k v, r5)
            | _ => none
        | _ => none
    | _ => none

def parseJsonElements (fuel : Nat) (l : List Char) :
    Option (List Json × List Char) :=
  match fuel with
  | 0 => none
  | fuel + 1 =>
    match parseJsonValue fuel l with
    | none => none
    | some (v, r) =>
      match skipWs r with
      | ',' :: r2 => (parseJsonElements fuel r2).map (fun (es, r3) => (v :: es, r3))
      | ']' :: r2 => some ([v], r2)
      | _ => none

end

/-- `JSON.parse`: the whole input, up to trailing whitespace, must be one
JSON value. -/
def jsonParse (s : String) : Option Json :=
  match parseJsonValue (s.length + 1) s.data with
  | some (v, rest) => if skipWs rest = [] then some v else none
  | none => none

def escapeJsonChar (c : Char) : List Char :=
  if c = '"' then ['\\', '"']
  else if c = '\\' then ['\\', '\\']
  else if c = '\n' then ['\\', 'n']
  else if c = '\r' then ['\\', 'r']
  else if c = '\t' then ['\\', 't']
  else if c = '\x08' then ['\\', 'b']
  else if c = '\x0c' then ['\\', 'f']
  else if c.toNat < 32 then
    ['\\', 'u', '0', '0', (Nat.digitChar (c.toNat / 16)), (Nat.digitChar (c.toNat % 16))]
  else [c]

def quoteJsonString (s : String) : String :=
  ⟨'"' :: (s.data.flatMap escapeJsonChar) ++ ['"']⟩

mutual

def jsonStringify : Json → String
  | .null => "null"
  | .bool true => "true"
  | .bool false => "false"
  | .num lit => lit
  | .str s => quoteJsonString s
  | .arr es => ⟨'[' :: (intercalateChar ',' (stringifyElems es)) ++ [']']⟩
  | .obj fs => ⟨'\x7b' :: (intercalateChar ',' (stringifyFields fs)) ++ ['\x7d']⟩

def stringifyElems : List Json → List (List Char)
  | [] => []
  | v :: rest => (jsonStringify v).data :: stringifyElems rest

def stringifyFields : List (String × Json) → List (List Char)
  | [] => []
  | (k, v) :: rest =>
    ((quoteJsonString k).data ++ ':' :: (jsonStringify v).data) :: stringifyFields rest

end

/-- `json.field` property read. -/
def jsonGet (j : Json) (k : String) : Option Json :=
  match j with
  | .obj fs => (fs.find? (·.1 == k)).map (·.2)
  | _ => none

/-- `delete json.field`. -/
def jsonDeleteField (j : Json) (k : String) : Json :=
  match j with
  | .obj fs => .obj (fs.filter (·.1 != k))
  | j => j

def numLitIsZero (lit : String) : Bool :=
  !((lit.data.takeWhile (fun c => c ≠ 'e' && c ≠ 'E')).any
    (fun c => isDigitChar c && c ≠ '0'))

/-- JS truthiness of a property read result (`undefined`, `null`, `false`,
`0`, and the empty string are falsy). -/
def jsTruthy : Option Json → Bool
  | none => false
  | some .null => false
  | some (.bool b) => b
  | some (.num lit) => !numLitIsZero lit
  | some (.str s) => s ≠ ""
  | some (.arr _) => true
  | some (.obj _) => true

/-! ## Request logger (lines 93-117): the line shapes -/

def logRequestLine (now clientIP method provider path model : String)
    (status durationMs : Nat) : String :=
  "[" ++ now ++ "] " ++ clientIP ++ " " ++ method ++ " /" ++ provider ++ path ++
    " model=" ++ model ++ " status=" ++ toString status ++ " " ++
    toString durationMs ++ "ms"

def logDeniedLine (now clientIP method path : String) : String :=
  "[" ++ now ++ "] DENIED " ++ clientIP ++ " " ++ method ++ " " ++ path

def logErrorLine (now clientIP method path err : String) : String :=
  "[" ++ now ++ "] ERROR " ++ clientIP ++ " " ++ method ++ " " ++ path ++ " — " ++ err

/-! ## Provider registry (lines 123-171) -/

inductive AuthStyle where
  | bearer
  | xApiKey
  | xGoogApiKey
deriving DecidableEq, Repr

structure ProviderConfig where
  upstream : String
  authStyle : AuthStyle
  passthroughHeaders : List String := []
deriving DecidableEq, Repr

/-- `PROVIDERS` in declaration order (`Object.entries` preserves it). -/
def PROVIDERS : List (String × ProviderConfig) :=
  [("anthropic",
    ⟨"https://api.anthropic.com", .xApiKey, ["anthropic-version", "anthropic-beta"]⟩),
   ("openai", ⟨"https://api.openai.com", .bearer, []⟩),
   ("grok", ⟨"https://api.x.ai", .bearer, []⟩),
   ("xai", ⟨"https://api.x.ai", .bearer, []⟩),
   ("google", ⟨"https://generativelanguage.googleapis.com", .xGoogApiKey, []⟩),
   ("mistral", ⟨"https://api.mistral.ai", .bearer, []⟩),
   ("groq", ⟨"https://api.groq.com", .bearer, []⟩),
   ("deepseek", ⟨"https://api.deepseek.com", .bearer, []⟩)]

/-! ## Keychain adapter (lines 176-201) -/

/-- One `execFile` invocation: command, arguments and the `timeout` entry
of the options object, when one is passed (`promisify(execFile)` applies
no timeout when the option is absent). -/
structure ExecCall where
  cmd : String
  args : List String
  timeout : Option Nat
deriving DecidableEq, Repr

inductive ExecResult where
  | ok (stdout : String)
  | err (message : String)

/-- Behaviour of the two keystore backends for each provider id. -/
structure KeystoreEnv where
  bio : String → ExecResult
  sec : String → ExecResult

/-- `path.join(__dirname, '..', 'dist', 'thesystem-keychain')`; the value
stands in for the resolved path. -/
def BIOMETRIC_BIN : String := "__dirname/../dist/thesystem-keychain"

/-- `readKeyFromKeychain` (lines 182-201), returning the result together
with the `execFile` invocations it performed, in order. -/
def readKeyFromKeychain (hasBiometricBin : Bool) (env : KeystoreEnv)
    (provider : String) : Except String String × List ExecCall :=
  let svc := "thesystem/" ++ provider
  let bioCall : List ExecCall :=
    if hasBiometricBin then [⟨BIOMETRIC_BIN, ["get", svc, provider], none⟩] else []
  let bioHit : Option String :=
    if hasBiometricBin then
      match env.bio provider with
      | .ok out => if jsTrim out ≠ "" then some (jsTrim out) else none
      | .err _ => none
    else none
  match bioHit with
  | some key => (.ok key, bioCall)
  | none =>
    let calls := bioCall ++
      [⟨"security", ["find-generic-password", "-a", provider, "-s", svc, "-w"], none⟩]
    match env.sec provider with
    | .ok out =>
      if jsTrim out == "" then (.error ("Empty key for provider " ++ provider), calls)
      else (.ok (jsTrim out), calls)
    | .err msg => (.error msg, calls)

/-- The `const hasBiometricBin = fs.existsSync(BIOMETRIC_BIN)` binding is
evaluated once, at module load. -/
def hasBiometricBinAt (fsExists : String → Bool) : Bool := fsExists BIOMETRIC_BIN

structure ProcessState where
  hasBiometricBin : Bool

def moduleLoad (fsExists : String → Bool) : ProcessState :=
  ⟨hasBiometricBinAt fsExists⟩

/-- A keystore read performed at some later time, when the file system
answers `fsNow`: the code consults only the load-time constant. -/
def readKeyAt (proc : ProcessState) (_fsNow : String → Bool) (env : KeystoreEnv)
    (provider : String) : Except String String × List ExecCall :=
  readKeyFromKeychain proc.hasBiometricBin env provider

/-! ## Request engine (lines 206-390) -/

structure StartOpts where
  port : Nat

structure Request where
  /-- `req.socket.remoteAddress`; "" models an undefined address. -/
  remoteAddress : String
  method : String
  /-- raw `req.url` -/
  url : String
  /-- `new URL(req.url, base).pathname`; WHATWG URL normalisation is
  assumed already applied. -/
  pathname : String
  search : String
  /-- incoming headers, names lowercased as Node delivers them -/
  headers : List (String × String)
  bodyChunks : List String

structure FetchResponse where
  status : Nat
  headers : List (String × String)
  body : Option String

inductive FetchOutcome where
  | ok (resp : FetchResponse)
  | fail (message : String)

structure Env where
  now : String
  elapsedMs : Nat
  hasBiometricBin : Bool
  keystore : KeystoreEnv
  fetch : FetchOutcome

structure ResState where
  statusSent : Option (Nat × List (String × String))
  chunks : List String
  ended : Bool
deriving DecidableEq

def res0 : ResState := ⟨none, [], false⟩

def resWriteHead (status : Nat) (hs : List (String × String)) (st : ResState) :
    ResState :=
  { st with statusSent := some (status, hs) }

def resEnd (data : String) (st : ResState) : ResState :=
  { st with chunks := st.chunks ++ [data], ended := true }

def resEndNoData (st : ResState) : ResState := { st with ended := true }

def resHeadersSent (st : ResState) : Bool := st.statusSent.isSome

/-- Externally visible effects of a handler run, in program order. -/
inductive Event where
  | bodyCaptured
  | keystoreRead (provider : String) (ok : Bool)
  | upstreamConnect (url method : String) (headers : List (String × String))
      (body : Option String)
deriving DecidableEq

structure Outcome where
  res : ResState
  logs : List String
  events : List Event
  calls : List ExecCall

def jsToLower (s : String) : String := ⟨s.data.map Char.toLower⟩

def jsToUpper (s : String) : String := ⟨s.data.map Char.toUpper⟩

/-- JS object used as a string-keyed record: lookup. -/
def recordGet (r : List (String × String)) (k : String) : Option String :=
  (r.find? (·.1 == k)).map (·.2)

/-- JS object assignment: a repeated key keeps its position, new keys
append. -/
def recordSet (r : List (String × String)) (k v : String) :
    List (String × String) :=
  if r.any (·.1 == k) then r.map (fun kv => if kv.1 == k then (k, v) else kv)
  else r ++ [(k, v)]

mutual

/-- JS template-literal rendering of the parsed `model` value. -/
def jsonDisplay : Json → String
  | .null => "null"
  | .bool true => "true"
  | .bool false => "false"
  | .num lit => lit
  | .str s => s
  | .arr es => ⟨intercalateChar ',' (displayElems es)⟩
  | .obj _ => "[object Object]"

def displayElems : List Json → List (List Char)
  | [] => []
  | v :: rest => (jsonDisplay v).data :: displayElems rest

end

/-- `extractModel` (lines 97-104): `json.model || '-'`. -/
def extractModel (body : String) : String :=
  match jsonParse body with
  | some j =>
    match jsonGet j "model" with
    | some v => if jsTruthy (some v) then jsonDisplay v else "-"
    | none => "-"
  | none => "-"

/-- Lines 225-233: drop a truthy `context_management` field from a JSON
body and re-serialize; anything else passes through unchanged. -/
def sanitizeAnthropicBody (body : String) : String :=
  match jsonParse body with
  | some j =>
    if jsTruthy (jsonGet j "context_management") then
      jsonStringify (jsonDeleteField j "context_management")
    else body
  | none => body

/-- Lines 239-245: the credential injected into the empty record. -/
def injectAuth (config : ProviderConfig) (apiKey : String) :
    List (String × String) :=
  match config.authStyle with
  | .bearer => recordSet [] "Authorization" ("Bearer " ++ apiKey)
  | .xGoogApiKey => recordSet [] "x-goog-api-key" apiKey
  | .xApiKey => recordSet [] "x-api-key" apiKey

/-- Lines 248-250: `if (req.headers['content-type']) ...`. -/
def copyContentType (reqHeaders acc : List (String × String)) :
    List (String × String) :=
  match recordGet reqHeaders "content-type" with
  | some v => if v ≠ "" then recordSet acc "content-type" v else acc
  | none => acc

/-- Lines 253-256: the passthrough-header loop. -/
def copyPassthrough (reqHeaders : List (String × String)) (hs : List String)
    (acc : List (String × String)) : List (String × String) :=
  hs.foldl (fun acc h =>
    match recordGet reqHeaders (jsToLower h) with
    | some v => if v ≠ "" then recordSet acc h v else acc
    | none => acc) acc

/-- Lines 258-260: the `anthropic-version` default when the record does
not yet carry a truthy value for it. -/
def applyAnthropicDefault (provider : String) (acc : List (String × String)) :
    List (String × String) :=
  let needsDefault :=
    match recordGet acc "anthropic-version" with
    | some v => v == ""
    | none => true
  if provider == "anthropic" && needsDefault then
    recordSet acc "anthropic-version" "2023-06-01"
  else acc

/-- Lines 238-260: the upstream header record, built from empty by the
four steps above in source order. -/
def buildUpstreamHeaders (config : ProviderConfig) (provider apiKey : String)
    (reqHeaders : List (String × String)) : List (String × String) :=
  applyAnthropicDefault provider
    (copyPassthrough reqHeaders config.passthroughHeaders
      (copyContentType reqHeaders (injectAuth config apiKey)))

/-- Lines 268-272: response headers minus the two stripped encodings. -/
def filterRespHeaders (hs : List (String × String)) : List (String × String) :=
  hs.filter (fun kv =>
    !(["content-encoding", "transfer-encoding"].contains (jsToLower kv.1)))

/-- The catch block of `proxyRequest` (lines 282-285) as a transformer of
the response state at the moment the exception arrives. -/
def proxyCatch (st : ResState) : ResState :=
  let st1 :=
    if !resHeadersSent st then
      resWriteHead 502 [("content-type", "text/plain")] st
    else st
  resEnd "bad gateway" st1

/-- `proxyRequest` (lines 206-288), entered from route dispatch; the body
chunks have been captured by the `end` listener before any further work. -/
def proxyRequest (env : Env) (name : String) (config : ProviderConfig)
    (upstreamPath search clientIP : String) (req : Request) : Outcome :=
  let upstreamUrl := config.upstream ++ upstreamPath ++ search
  let body := String.join req.bodyChunks
  let model := extractModel body
  let body2 :=
    if name == "anthropic" && body.length > 0 then sanitizeAnthropicBody body
    else body
  let methodOrGet := if req.method == "" then "GET" else req.method
  match readKeyFromKeychain env.hasBiometricBin env.keystore name with
  | (.error msg, calls) =>
    { res := proxyCatch res0,
      logs := [logErrorLine env.now clientIP methodOrGet ("/" ++ name ++ upstreamPath)
        (if msg == "" then "upstream fetch failed" else msg)],
      events := [.bodyCaptured, .keystoreRead name false],
      calls := calls }
  | (.ok apiKey, calls) =>
    let hdrs := buildUpstreamHeaders config name apiKey req.headers
    let fetchBody :=
      if ["GET", "HEAD"].contains (jsToUpper methodOrGet) then none else some body2
    match env.fetch with
    | .ok resp =>
      let st1 := resWriteHead resp.status (filterRespHeaders resp.headers) res0
      let st2 := match resp.body with
        | some b => resEnd b st1
        | none => resEndNoData st1
      { res := st2,
        logs := [logRequestLine env.now clientIP methodOrGet name upstreamPath model
          resp.status env.elapsedMs],
        events := [.bodyCaptured, .keystoreRead name true,
          .upstreamConnect upstreamUrl methodOrGet hdrs fetchBody],
        calls := calls }
    | .fail msg =>
      { res := proxyCatch res0,
        logs := [logErrorLine env.now clientIP methodOrGet ("/" ++ name ++ upstreamPath)
          (if msg == "" then "upstream fetch failed" else msg)],
        events := [.bodyCaptured, .keystoreRead name true,
          .upstreamConnect upstreamUrl methodOrGet hdrs fetchBody],
        calls := calls }

def isWordChar (c : Char) : Bool :=
  isDigitChar c || ('a' ≤ c && c ≤ 'z') || ('A' ≤ c && c ≤ 'Z') || c = '_'

/-- The anchored match `^\/agentauth\/credential\/(\w+)$` (line 342). -/
def credRoute (pathname : String) : Option String :=
  match dropChars "/agentauth/credential/".data pathname.data with
  | some rest => if rest ≠ [] && rest.all isWordChar then some ⟨rest⟩ else none
  | none => none

/-- The registry dispatch loop (lines 359-366): first provider, in
declaration order, whose id prefixes the path with a slash boundary. -/
def matchProviderRoute (pathname : String) :
    Option (String × ProviderConfig × String) :=
  PROVIDERS.findSome? (fun nc =>
    let name := nc.1
    if pathname == "/" ++ name then some (name, nc.2, "/")
    else if startsWithChars ("/" ++ name ++ "/").data pathname.data then
      some (name, nc.2, ⟨pathname.data.drop (name.length + 1)⟩)
    else none)

def providerNamesJson : Json := .arr (PROVIDERS.map (fun nc => .str nc.1))

/-- The HTTP handler of `startAgentAuthProxy` (lines 312-379). -/
def handleRequest (opts : StartOpts) (env : Env) (req : Request) : Outcome :=
  let clientIP := if req.remoteAddress == "" then "unknown" else req.remoteAddress
  let methodOrGet := if req.method == "" then "GET" else req.method
  if !isAllowedIP clientIP then
    { res := resEnd "forbidden" (resWriteHead 403 [("content-type", "text/plain")] res0),
      logs := [logDeniedLine env.now clientIP methodOrGet
        (if req.url == "" then "/" else req.url)],
      events := [], calls := [] }
  else if req.pathname == "/agentauth/health" then
    { res := resEnd (jsonStringify (.obj [("status", .str "ok"),
        ("backends", providerNamesJson), ("port", .num (toString opts.port))]))
        (resWriteHead 200 [("content-type", "application/json")] res0),
      logs := ["[" ++ env.now ++ "] " ++ clientIP ++ " GET /agentauth/health"],
      events := [], calls := [] }
  else if req.pathname == "/agentauth/providers" then
    { res := resEnd (jsonStringify providerNamesJson)
        (resWriteHead 200 [("content-type", "application/json")] res0),
      logs := [], events := [], calls := [] }
  else
    match credRoute req.pathname with
    | some provider =>
      match readKeyFromKeychain env.hasBiometricBin env.keystore provider with
      | (.ok token, calls) =>
        { res := resEnd (jsonStringify (.obj [("token", .str token)]))
            (resWriteHead 200 [("content-type", "application/json")] res0),
          logs := ["[" ++ env.now ++ "] " ++ clientIP ++ " GET /agentauth/credential/"
            ++ provider ++ " status=200"],
          events := [.keystoreRead provider true], calls := calls }
      | (.error _, calls) =>
        { res := resEnd (jsonStringify (.obj [("error", .str "no_credential"),
            ("message", .str ("No key for " ++ provider ++ " in Keychain"))]))
            (resWriteHead 404 [("content-type", "application/json")] res0),
          logs := ["[" ++ env.now ++ "] " ++ clientIP ++ " GET /agentauth/credential/"
            ++ provider ++ " status=404"],
          events := [.keystoreRead provider false], calls := calls }
    | none =>
      match matchProviderRoute req.pathname with
      | some (name, config, upstreamPath) =>
        proxyRequest env name config upstreamPath req.search clientIP req
      | none =>
        { res := resEnd "not found" (resWriteHead 404 [("content-type", "text/plain")] res0),
          logs := ["[" ++ env.now ++ "] " ++ clientIP ++ " " ++ req.method ++ " "
            ++ req.pathname ++ " status=404"],
          events := [], calls := [] }

/-! ## Trace selectors -/

def Event.isKeystoreRead : Event → Bool
  | .keystoreRead _ _ => true
  | _ => false

def Event.isUpstreamConnect : Event → Bool
  | .upstreamConnect _ _ _ _ => true
  | _ => false

def keystoreReadCount (o : Outcome) : Nat :=
  (o.events.filter Event.isKeystoreRead).length

def upstreamConnectCount (o : Outcome) : Nat :=
  (o.events.filter Event.isUpstreamConnect).length

/-- Body handed to the first upstream `fetch`, when one happens. -/
def firstUpstreamBody (o : Outcome) : Option (Option String) :=
  o.events.findSome? (fun e =>
    match e with
    | .upstreamConnect _ _ _ b => some b
    | _ => none)

/-- Header record handed to the first upstream `fetch`. -/
def firstUpstreamHeaders (o : Outcome) : Option (List (String × String)) :=
  o.events.findSome? (fun e =>
    match e with
    | .upstreamConnect _ _ h _ => some h
    | _ => none)

/-! ## Helper lemmas -/

theorem dropChars_self_append (p l : List Char) : dropChars p (p ++ l) = some l := by
  induction p with
  | nil => rfl
  | cons c cs ih => simpa [dropChars] using ih

theorem string_data_append (a b : String) : (a ++ b).data = a.data ++ b.data := rfl

theorem string_mk_data (s : String) : (⟨s.data⟩ : String) = s := rfl

theorem credRoute_concat (id : String) (h1 : id.data ≠ [])
    (h2 : id.data.all isWordChar) :
    credRoute ("/agentauth/credential/" ++ id) = some id := by
  unfold credRoute
  rw [string_data_append, dropChars_self_append]
  simp [h1, h2]

theorem cred_path_ne_health (id : String) :
    ("/agentauth/credential/" ++ id) ≠ "/agentauth/health" := by
  intro h
  have hd := congrArg (fun s => s.data.length) h
  simp [string_data_append] at hd

theorem cred_path_ne_providers (id : String) :
    ("/agentauth/credential/" ++ id) ≠ "/agentauth/providers" := by
  intro h
  have hd := congrArg (fun s => s.data.length) h
  simp [string_data_append] at hd

/-! ## Shared concrete fixtures for witnesses and counterexamples -/

def stubKeystore (value : String) : KeystoreEnv :=
  ⟨fun _ => .err "biometric helper absent", fun _ => .ok (value ++ "\n")⟩

def missingKeystore : KeystoreEnv :=
  ⟨fun _ => .err "biometric helper absent",
   fun _ => .err "The specified item could not be found."⟩

def stubResponse : FetchResponse :=
  ⟨200, [("content-type", "application/json")], some "\x7b\"id\":\"m1\"\x7d"⟩

def envAnthropicOk : Env :=
  ⟨"2026-01-01T00:00:00.000Z", 42, false, stubKeystore "sk-ant-TEST", .ok stubResponse⟩

def envMissingKey : Env :=
  ⟨"2026-01-01T00:00:00.000Z", 42, false, missingKeystore, .ok stubResponse⟩

def envFetchFail : Env :=
  ⟨"2026-01-01T00:00:00.000Z", 42, false, stubKeystore "sk-openai-TEST",
   .fail "connect ECONNREFUSED"⟩

/-! ## Claim C2 -/

/-- Claim C2: a request whose (effective) remote address fails the
allowlist test is answered directly with status 403, plain-text body
`forbidden`, and a single DENIED log line; the outcome carries no route
work at all — the event trace is empty (no keystore read, no upstream
connection) and no keystore process invocation happens. -/
theorem denied_requests_short_circuit (opts : StartOpts) (env : Env) (req : Request)
    (h : isAllowedIP (if req.remoteAddress == "" then "unknown" else req.remoteAddress)
      = false) :
    handleRequest opts env req =
      { res := ⟨some (403, [("content-type", "text/plain")]), ["forbidden"], true⟩,
        logs := [logDeniedLine env.now
          (if req.remoteAddress == "" then "unknown" else req.remoteAddress)
          (if req.method == "" then "GET" else req.method)
          (if req.url == "" then "/" else req.url)],
        events := [], calls := [] } := by
  simp only [beq_iff_eq] at h
  simp [handleRequest, h, resEnd, resWriteHead, res0]

/-- Witness for C2 at a concrete denied source (`8.8.8.8`, the S3
scenario of the specification). -/
theorem denied_requests_short_circuit_witness :
    handleRequest ⟨9999⟩ envAnthropicOk
      ⟨"8.8.8.8", "GET", "/agentauth/health", "/agentauth/health", "", [], []⟩ =
      { res := ⟨some (403, [("content-type", "text/plain")]), ["forbidden"], true⟩,
        logs := [logDeniedLine "2026-01-01T00:00:00.000Z" "8.8.8.8" "GET"
          "/agentauth/health"],
        events := [], calls := [] } :=
  denied_requests_short_circuit ⟨9999⟩ envAnthropicOk
    ⟨"8.8.8.8", "GET", "/agentauth/health", "/agentauth/health", "", [], []⟩
    (by decide)

/-! ## Claim C3 -/

/-- Claim C3: on a successful registry-route request the effect trace is
exactly body capture, then a single keystore read, then the upstream
request — so exactly one secret-store read occurs, it starts only after
the request body is fully captured, and the upstream request is issued
only after the read completes. -/
theorem proxied_request_single_ordered_read
    (opts : StartOpts) (env : Env) (req : Request)
    (name : String) (config : ProviderConfig) (upstreamPath key : String)
    (resp : FetchResponse)
    (hip : isAllowedIP (if req.remoteAddress == "" then "unknown" else req.remoteAddress)
      = true)
    (hh : req.pathname ≠ "/agentauth/health")
    (hp : req.pathname ≠ "/agentauth/providers")
    (hc : credRoute req.pathname = none)
    (hm : matchProviderRoute req.pathname = some (name, config, upstreamPath))
    (hk : (readKeyFromKeychain env.hasBiometricBin env.keystore name).1 = .ok key)
    (hf : env.fetch = .ok resp) :
    (handleRequest opts env req).events =
      [.bodyCaptured, .keystoreRead name true,
       .upstreamConnect (config.upstream ++ upstreamPath ++ req.search)
         (if req.method == "" then "GET" else req.method)
         (buildUpstreamHeaders config name key req.headers)
         (if ["GET", "HEAD"].contains
              (jsToUpper (if req.method == "" then "GET" else req.method)) then none
          else some (if name == "anthropic" && (String.join req.bodyChunks).length > 0
                     then sanitizeAnthropicBody (String.join req.bodyChunks)
                     else String.join req.bodyChunks))] := by
  simp only [beq_iff_eq] at hip
  rcases hrk : readKeyFromKeychain env.hasBiometricBin env.keystore name with ⟨r, calls⟩
  rw [hrk] at hk
  simp only at hk
  subst hk
  simp [handleRequest, hip, hh, hp, hc, hm, proxyRequest, hrk, hf]

/-- Witness for C3: the S1-style happy path, `POST /anthropic/v1/messages`
from loopback with a stored key and a 200 upstream. -/
theorem proxied_request_single_ordered_read_witness :
    (handleRequest ⟨9999⟩ envAnthropicOk
      ⟨"127.0.0.1", "POST", "/anthropic/v1/messages", "/anthropic/v1/messages", "",
       [("content-type", "application/json")],
       ["\x7b\"model\":\"claude-3-5-sonnet\",\"messages\":[]\x7d"]⟩).events =
      [.bodyCaptured, .keystoreRead "anthropic" true,
       .upstreamConnect "https://api.anthropic.com/v1/messages" "POST"
         [("x-api-key", "sk-ant-TEST"), ("content-type", "application/json"),
          ("anthropic-version", "2023-06-01")]
         (some "\x7b\"model\":\"claude-3-5-sonnet\",\"messages\":[]\x7d")] := by
  have h := proxied_request_single_ordered_read ⟨9999⟩ envAnthropicOk
    ⟨"127.0.0.1", "POST", "/anthropic/v1/messages", "/anthropic/v1/messages", "",
     [("content-type", "application/json")],
     ["\x7b\"model\":\"claude-3-5-sonnet\",\"messages\":[]\x7d"]⟩
    "anthropic" ⟨"https://api.anthropic.com", .xApiKey,
      ["anthropic-version", "anthropic-beta"]⟩ "/v1/messages" "sk-ant-TEST"
    stubResponse (by decide) (by decide) (by decide) (by decide) (by decide)
    (by rfl) rfl
  rw [h]
  decide

/-! ## Claim C5 -/

/-- The call trace of a read is either the biometric attempt alone (when
it produced a usable key) or the biometric attempt followed by the
`security` fallback. -/
theorem readKey_calls_shape (hb : Bool) (env : KeystoreEnv) (p : String) :
    (readKeyFromKeychain hb env p).2 =
      (if hb then [⟨BIOMETRIC_BIN, ["get", "thesystem/" ++ p, p], none⟩] else []) ∨
    (readKeyFromKeychain hb env p).2 =
      (if hb then [⟨BIOMETRIC_BIN, ["get", "thesystem/" ++ p, p], none⟩] else []) ++
      [⟨"security", ["find-generic-password", "-a", p, "-s", "thesystem/" ++ p, "-w"],
        none⟩] := by
  unfold readKeyFromKeychain
  cases hb <;> rcases env.bio p with out | msg <;>
    rcases env.sec p with o2 | m2 <;>
    simp only [Bool.false_eq_true, if_neg, if_pos, reduceIte] <;>
    (repeat' split) <;> simp

/-- Claim C5 (refuting evidence): every `execFile` invocation issued by
`readKeyFromKeychain` — the biometric helper as well as the `security`
fallback — carries no `timeout` option, so nothing bounds a lookup
against a keystore backend that never responds; the roughly five-second
hard timeout asserted by the specification does not exist in this
adapter. -/
theorem readKeyFromKeychain_lookup_unbounded (hb : Bool) (env : KeystoreEnv)
    (p : String) (c : ExecCall)
    (hc : c ∈ (readKeyFromKeychain hb env p).2) : c.timeout = none := by
  rcases readKey_calls_shape hb env p with h | h <;> rw [h] at hc <;>
    cases hb <;> simp at hc <;>
    rcases hc with rfl | rfl <;> rfl

/-- Witness for C5: the `security` fallback call of a concrete read is in
the call trace and carries no timeout. -/
theorem readKeyFromKeychain_lookup_unbounded_witness :
    (⟨"security", ["find-generic-password", "-a", "openai", "-s",
        "thesystem/openai", "-w"], none⟩ : ExecCall) ∈
      (readKeyFromKeychain false (stubKeystore "sk-openai-TEST") "openai").2 ∧
    (⟨"security", ["find-generic-password", "-a", "openai", "-s",
        "thesystem/openai", "-w"], none⟩ : ExecCall).timeout = none :=
  ⟨by decide,
   readKeyFromKeychain_lookup_unbounded false (stubKeystore "sk-openai-TEST")
     "openai" _ (by decide)⟩

/-! ## Claim C10 -/

/-- Claim C10: whether the biometric-gated backend is attempted is fixed
by the module-load file-existence check: a read performed later returns
the same result and the same call trace whatever the file system looks
like at call time, and the biometric helper is invoked exactly when the
helper binary existed at load. -/
theorem biometric_choice_fixed_at_load (fs0 fs1 fs2 : String → Bool)
    (env : KeystoreEnv) (p : String) :
    readKeyAt (moduleLoad fs0) fs1 env p = readKeyAt (moduleLoad fs0) fs2 env p ∧
    (moduleLoad fs0).hasBiometricBin = fs0 BIOMETRIC_BIN ∧
    ((readKeyAt (moduleLoad fs0) fs1 env p).2.any (·.cmd == BIOMETRIC_BIN)
      = fs0 BIOMETRIC_BIN) := by
  refine ⟨rfl, rfl, ?_⟩
  show (readKeyFromKeychain (fs0 BIOMETRIC_BIN) env p).2.any (·.cmd == BIOMETRIC_BIN)
    = fs0 BIOMETRIC_BIN
  rcases readKey_calls_shape (fs0 BIOMETRIC_BIN) env p with h | h <;> rw [h] <;>
    cases fs0 BIOMETRIC_BIN
  · simp
  · simp
  · simp
    decide
  · simp

/-! ## Claim C7 -/

/-- Claim C7: on a registry route, a missing credential (keystore
failure) or an upstream fetch failure produces a 502 response with
plain-text body `bad gateway` and an ERROR log line (first two
conjuncts); the catch block never rewrites the status once response
headers have been sent and still closes the response (third conjunct);
and no request ever performs more than one keystore read, so the read is
never retried (fourth conjunct). -/
theorem upstream_or_keystore_failure_yields_502 :
    (∀ (opts : StartOpts) (env : Env) (req : Request) (name : String)
       (config : ProviderConfig) (upstreamPath msg : String),
       isAllowedIP (if req.remoteAddress == "" then "unknown" else req.remoteAddress)
         = true →
       req.pathname ≠ "/agentauth/health" →
       req.pathname ≠ "/agentauth/providers" →
       credRoute req.pathname = none →
       matchProviderRoute req.pathname = some (name, config, upstreamPath) →
       (readKeyFromKeychain env.hasBiometricBin env.keystore name).1 = .error msg →
       handleRequest opts env req =
         { res := ⟨some (502, [("content-type", "text/plain")]), ["bad gateway"], true⟩,
           logs := [logErrorLine env.now
             (if req.remoteAddress == "" then "unknown" else req.remoteAddress)
             (if req.method == "" then "GET" else req.method)
             ("/" ++ name ++ upstreamPath)
             (if msg == "" then "upstream fetch failed" else msg)],
           events := [.bodyCaptured, .keystoreRead name false],
           calls := (readKeyFromKeychain env.hasBiometricBin env.keystore name).2 }) ∧
    (∀ (opts : StartOpts) (env : Env) (req : Request) (name : String)
       (config : ProviderConfig) (upstreamPath key msg : String),
       isAllowedIP (if req.remoteAddress == "" then "unknown" else req.remoteAddress)
         = true →
       req.pathname ≠ "/agentauth/health" →
       req.pathname ≠ "/agentauth/providers" →
       credRoute req.pathname = none →
       matchProviderRoute req.pathname = some (name, config, upstreamPath) →
       (readKeyFromKeychain env.hasBiometricBin env.keystore name).1 = .ok key →
       env.fetch = .fail msg →
       handleRequest opts env req =
         { res := ⟨some (502, [("content-type", "text/plain")]), ["bad gateway"], true⟩,
           logs := [logErrorLine env.now
             (if req.remoteAddress == "" then "unknown" else req.remoteAddress)
             (if req.method == "" then "GET" else req.method)
             ("/" ++ name ++ upstreamPath)
             (if msg == "" then "upstream fetch failed" else msg)],
           events := [.bodyCaptured, .keystoreRead name true,
             .upstreamConnect (config.upstream ++ upstreamPath ++ req.search)
               (if req.method == "" then "GET" else req.method)
               (buildUpstreamHeaders config name key req.headers)
               (if ["GET", "HEAD"].contains
                    (jsToUpper (if req.method == "" then "GET" else req.method)) then none
                else some (if name == "anthropic" &&
                      (String.join req.bodyChunks).length > 0
                    then sanitizeAnthropicBody (String.join req.bodyChunks)
                    else String.join req.bodyChunks))],
           calls := (readKeyFromKeychain env.hasBiometricBin env.keystore name).2 }) ∧
    (∀ st : ResState, resHeadersSent st = true →
       proxyCatch st = { st with chunks := st.chunks ++ ["bad gateway"], ended := true }) ∧
    (∀ (opts : StartOpts) (env : Env) (req : Request),
       keystoreReadCount (handleRequest opts env req) ≤ 1) := by
  refine ⟨?_, ?_, ?_, ?_⟩
  · intro opts env req name config upstreamPath msg hip hh hp hc hm hk
    simp only [beq_iff_eq] at hip
    rcases hrk : readKeyFromKeychain env.hasBiometricBin env.keystore name with ⟨r, calls⟩
    rw [hrk] at hk
    simp only at hk
    subst hk
    simp [handleRequest, hip, hh, hp, hc, hm, proxyRequest, hrk, proxyCatch,
      resHeadersSent, resWriteHead, resEnd, res0]
  · intro opts env req name config upstreamPath key msg hip hh hp hc hm hk hf
    simp only [beq_iff_eq] at hip
    rcases hrk : readKeyFromKeychain env.hasBiometricBin env.keystore name with ⟨r, calls⟩
    rw [hrk] at hk
    simp only at hk
    subst hk
    simp [handleRequest, hip, hh, hp, hc, hm, proxyRequest, hrk, hf, proxyCatch,
      resHeadersSent, resWriteHead, resEnd, res0]
  · intro st h
    simp [proxyCatch, h, resEnd]
  · intro opts env req
    by_cases hip : isAllowedIP
        (if req.remoteAddress == "" then "unknown" else req.remoteAddress) = true
    · simp only [beq_iff_eq] at hip
      by_cases hh : req.pathname = "/agentauth/health"
      · simp [handleRequest, hip, hh, keystoreReadCount]
      · by_cases hp : req.pathname = "/agentauth/providers"
        · simp [handleRequest, hip, hh, hp, keystoreReadCount]
        · rcases hcr : credRoute req.pathname with _ | id
          · rcases hmp : matchProviderRoute req.pathname with _ | ⟨name, config, up⟩
            · simp [handleRequest, hip, hh, hp, hcr, hmp, keystoreReadCount]
            · rcases hrk : readKeyFromKeychain env.hasBiometricBin env.keystore name
                with ⟨r, calls⟩
              cases r <;> rcases hfe : env.fetch with resp | msg <;>
                simp [handleRequest, hip, hh, hp, hcr, hmp, proxyRequest, hrk, hfe,
                  keystoreReadCount, Event.isKeystoreRead]
          · rcases hrk : readKeyFromKeychain env.hasBiometricBin env.keystore id
              with ⟨r, calls⟩
            cases r <;>
              simp [handleRequest, hip, hh, hp, hcr, hrk, keystoreReadCount,
                Event.isKeystoreRead]
    · simp only [Bool.not_eq_true, beq_iff_eq] at hip
      simp [handleRequest, hip, keystoreReadCount]

/-- Witness for C7 at the S4 scenario: missing `mistral` credential on a
proxied route gives 502 `bad gateway`, an ERROR line, and no upstream
connection event. -/
theorem upstream_or_keystore_failure_yields_502_witness :
    handleRequest ⟨9999⟩ envMissingKey
      ⟨"127.0.0.1", "POST", "/mistral/v1/chat/completions",
       "/mistral/v1/chat/completions", "", [], ["\x7b\x7d"]⟩ =
      { res := ⟨some (502, [("content-type", "text/plain")]), ["bad gateway"], true⟩,
        logs := [logErrorLine "2026-01-01T00:00:00.000Z" "127.0.0.1" "POST"
          "/mistral/v1/chat/completions" "The specified item could not be found."],
        events := [.bodyCaptured, .keystoreRead "mistral" false],
        calls := [⟨"security", ["find-generic-password", "-a", "mistral", "-s",
          "thesystem/mistral", "-w"], none⟩] } :=
  (upstream_or_keystore_failure_yields_502.1 ⟨9999⟩ envMissingKey
    ⟨"127.0.0.1", "POST", "/mistral/v1/chat/completions",
     "/mistral/v1/chat/completions", "", [], ["\x7b\x7d"]⟩
    "mistral" ⟨"https://api.mistral.ai", .bearer, []⟩ "/v1/chat/completions"
    "The specified item could not be found." (by decide) (by decide) (by decide)
    (by decide) (by decide) (by rfl)).trans rfl

/-! ## Claim C8 -/

/-- Claim C8: for any id made of word characters — registered provider or
not — an allowlisted request for `/agentauth/credential/<id>` answers 200
with JSON body containing the token exactly when the keystore adapter
yields a key (a non-empty stored value under service `thesystem/<id>`,
account `<id>`), and 404 with the `no_credential` JSON error otherwise;
the log line in both cases is built only from the timestamp, client
address, id and status, never from the token. -/
theorem credential_endpoint_contract (opts : StartOpts) (env : Env) (req : Request)
    (id token msg : String)
    (hid1 : id.data ≠ []) (hid2 : id.data.all isWordChar)
    (hip : isAllowedIP (if req.remoteAddress == "" then "unknown" else req.remoteAddress)
      = true)
    (hpath : req.pathname = "/agentauth/credential/" ++ id) :
    ((readKeyFromKeychain env.hasBiometricBin env.keystore id).1 = .ok token →
      handleRequest opts env req =
        { res := ⟨some (200, [("content-type", "application/json")]),
            [jsonStringify (.obj [("token", .str token)])], true⟩,
          logs := ["[" ++ env.now ++ "] " ++
            (if req.remoteAddress == "" then "unknown" else req.remoteAddress) ++
            " GET /agentauth/credential/" ++ id ++ " status=200"],
          events := [.keystoreRead id true],
          calls := (readKeyFromKeychain env.hasBiometricBin env.keystore id).2 }) ∧
    ((readKeyFromKeychain env.hasBiometricBin env.keystore id).1 = .error msg →
      handleRequest opts env req =
        { res := ⟨some (404, [("content-type", "application/json")]),
            [jsonStringify (.obj [("error", .str "no_credential"),
              ("message", .str ("No key for " ++ id ++ " in Keychain"))])], true⟩,
          logs := ["[" ++ env.now ++ "] " ++
            (if req.remoteAddress == "" then "unknown" else req.remoteAddress) ++
            " GET /agentauth/credential/" ++ id ++ " status=404"],
          events := [.keystoreRead id false],
          calls := (readKeyFromKeychain env.hasBiometricBin env.keystore id).2 }) := by
  simp only [beq_iff_eq] at hip
  have hcr := credRoute_concat id hid1 hid2
  have hne1 := cred_path_ne_health id
  have hne2 := cred_path_ne_providers id
  constructor <;> intro hk <;>
    rcases hrk : readKeyFromKeychain env.hasBiometricBin env.keystore id
      with ⟨r, calls⟩ <;>
    rw [hrk] at hk <;> simp only at hk <;> subst hk <;>
    simp [handleRequest, hpath, hip, hne1, hne2, hcr, hrk, resEnd, resWriteHead, res0]

def envGithubToken : Env :=
  ⟨"2026-01-01T00:00:00.000Z", 42, false, stubKeystore "ghp_testtoken123",
   .ok stubResponse⟩
/-- Witness for C8 at the S5 scenario: a stored github token (github is
not a registered provider) is returned as a 200 JSON body; the log line
is a fixed string that does not contain the token. -/
theorem credential_endpoint_contract_witness :
    handleRequest ⟨9999⟩ envGithubToken
      ⟨"127.0.0.1", "GET", "/agentauth/credential/github",
       "/agentauth/credential/github", "", [], []⟩ =
      { res := ⟨some (200, [("content-type", "application/json")]),
          ["\x7b\"token\":\"ghp_testtoken123\"\x7d"], true⟩,
        logs := ["[2026-01-01T00:00:00.000Z] 127.0.0.1 GET /agentauth/credential/github status=200"],
        events := [.keystoreRead "github" true],
        calls := [⟨"security", ["find-generic-password", "-a", "github", "-s",
          "thesystem/github", "-w"], none⟩] } :=
  ((credential_endpoint_contract ⟨9999⟩ envGithubToken
    ⟨"127.0.0.1", "GET", "/agentauth/credential/github",
     "/agentauth/credential/github", "", [], []⟩
    "github" "ghp_testtoken123" "unused" (by decide) (by decide) (by decide)
    (by decide)).1 (by rfl)).trans rfl

/-! ## Claim C9 -/

/-- Claim C9 as amended: on a proxied non-GET/HEAD anthropic request, the
body forwarded upstream is the re-serialized JSON with the
`context_management` field deleted exactly when the captured body parses
as JSON and that field is truthy; an anthropic JSON body whose
`context_management` field is absent or falsy, an anthropic body that is
not valid JSON, and the body of every other provider are forwarded
byte-for-byte unchanged. -/
theorem anthropic_sanitizer_truthy_only
    (opts : StartOpts) (env : Env) (req : Request)
    (name : String) (config : ProviderConfig) (upstreamPath key : String)
    (resp : FetchResponse)
    (hip : isAllowedIP (if req.remoteAddress == "" then "unknown" else req.remoteAddress)
      = true)
    (hh : req.pathname ≠ "/agentauth/health")
    (hp : req.pathname ≠ "/agentauth/providers")
    (hc : credRoute req.pathname = none)
    (hm : matchProviderRoute req.pathname = some (name, config, upstreamPath))
    (hk : (readKeyFromKeychain env.hasBiometricBin env.keystore name).1 = .ok key)
    (hf : env.fetch = .ok resp)
    (hmethod : ["GET", "HEAD"].contains
      (jsToUpper (if req.method == "" then "GET" else req.method)) = false) :
    (name = "anthropic" → ∀ j : Json,
      jsonParse (String.join req.bodyChunks) = some j →
      jsTruthy (jsonGet j "context_management") = true →
      firstUpstreamBody (handleRequest opts env req) =
        some (some (jsonStringify (jsonDeleteField j "context_management")))) ∧
    (name = "anthropic" → ∀ j : Json,
      jsonParse (String.join req.bodyChunks) = some j →
      jsTruthy (jsonGet j "context_management") = false →
      firstUpstreamBody (handleRequest opts env req) =
        some (some (String.join req.bodyChunks))) ∧
    (name = "anthropic" → jsonParse (String.join req.bodyChunks) = none →
      firstUpstreamBody (handleRequest opts env req) =
        some (some (String.join req.bodyChunks))) ∧
    (name ≠ "anthropic" →
      firstUpstreamBody (handleRequest opts env req) =
        some (some (String.join req.bodyChunks))) := by
  simp only [beq_iff_eq] at hip
  simp only [List.contains_cons, List.contains_nil, Bool.or_eq_false_iff,
    beq_eq_false_iff_ne, beq_iff_eq] at hmethod
  rcases hrk : readKeyFromKeychain env.hasBiometricBin env.keystore name with ⟨r, calls⟩
  rw [hrk] at hk
  simp only at hk
  subst hk
  have hred : firstUpstreamBody (handleRequest opts env req) =
      some (if name == "anthropic" && (String.join req.bodyChunks).length > 0
        then some (sanitizeAnthropicBody (String.join req.bodyChunks))
        else some (String.join req.bodyChunks)) := by
    simp [handleRequest, hip, hh, hp, hc, hm, proxyRequest, hrk, hf,
      firstUpstreamBody, hmethod.1, hmethod.2.1]
    split <;> rfl
  refine ⟨?_, ?_, ?_, ?_⟩
  · intro hname j hj htr
    subst hname
    have hne : String.join req.bodyChunks ≠ "" := by
      intro h0
      rw [h0] at hj
      exact Option.noConfusion ((rfl : jsonParse "" = none).symm.trans hj)
    have hlen : (String.join req.bodyChunks).length > 0 := by
      cases hsj : String.join req.bodyChunks with
      | mk data =>
        cases data with
        | nil => exact absurd hsj (by simpa using hne)
        | cons a l => simp [String.length, hsj]
    rw [hred]
    simp [hlen, sanitizeAnthropicBody, hj, htr]
  · intro hname j hj htr
    subst hname
    rw [hred]
    by_cases hlen : (String.join req.bodyChunks).length > 0
    · simp [hlen, sanitizeAnthropicBody, hj, htr]
    · simp [hlen]
  · intro hname hj
    subst hname
    rw [hred]
    by_cases hlen : (String.join req.bodyChunks).length > 0
    · simp [hlen, sanitizeAnthropicBody, hj]
    · simp [hlen]
  · intro hname
    rw [hred]
    simp [hname]

/-- Counterexample to C9 as stated: the body
`\x7b"context_management":false,"model":"m"\x7d` parses as JSON and
contains a `context_management` field, yet the body forwarded upstream is
the original bytes (the field is still present), not the re-serialized
JSON with the field deleted, because the source tests the field for JS
truthiness rather than presence. -/
theorem anthropic_sanitizer_claim_counterexample :
    firstUpstreamBody (handleRequest ⟨9999⟩ envAnthropicOk
      ⟨"127.0.0.1", "POST", "/anthropic/v1/messages", "/anthropic/v1/messages", "",
       [("content-type", "application/json")],
       ["\x7b\"context_management\":false,\"model\":\"m\"\x7d"]⟩) =
      some (some "\x7b\"context_management\":false,\"model\":\"m\"\x7d") ∧
    ((jsonParse "\x7b\"context_management\":false,\"model\":\"m\"\x7d").map
      (fun j => (jsonGet j "context_management").isSome)) = some true ∧
    ((jsonParse "\x7b\"context_management\":false,\"model\":\"m\"\x7d").map
      (fun j => jsonStringify (jsonDeleteField j "context_management"))) =
      some "\x7b\"model\":\"m\"\x7d" ∧
    "\x7b\"context_management\":false,\"model\":\"m\"\x7d" ≠ "\x7b\"model\":\"m\"\x7d" :=
  ⟨by decide, by decide, by decide, by decide⟩

/-- Witness for the amended C9 at the S6 scenario: a truthy
`context_management` object is deleted and the body re-serialized with
all other fields preserved. -/
theorem anthropic_sanitizer_truthy_only_witness :
    firstUpstreamBody (handleRequest ⟨9999⟩ envAnthropicOk
      ⟨"127.0.0.1", "POST", "/anthropic/v1/messages", "/anthropic/v1/messages", "",
       [("content-type", "application/json")],
       ["\x7b\"model\":\"x\",\"context_management\":\x7b\"enabled\":true\x7d,\"messages\":[]\x7d"]⟩) =
      some (some "\x7b\"model\":\"x\",\"messages\":[]\x7d") :=
  ((anthropic_sanitizer_truthy_only ⟨9999⟩ envAnthropicOk
    ⟨"127.0.0.1", "POST", "/anthropic/v1/messages", "/anthropic/v1/messages", "",
     [("content-type", "application/json")],
     ["\x7b\"model\":\"x\",\"context_management\":\x7b\"enabled\":true\x7d,\"messages\":[]\x7d"]⟩
    "anthropic" ⟨"https://api.anthropic.com", .xApiKey,
      ["anthropic-version", "anthropic-beta"]⟩ "/v1/messages" "sk-ant-TEST"
    stubResponse (by decide) (by decide) (by decide) (by decide) (by decide)
    (by rfl) rfl (by decide)).1 rfl
    (.obj [("model", .str "x"),
      ("context_management", .obj [("enabled", .bool true)]),
      ("messages", .arr [])])
    (by rfl) (by rfl)).trans rfl

/-! ## Claim C4 -/

theorem recordGet_cons (k1 v1 : String) (r : List (String × String)) (k : String) :
    recordGet ((k1, v1) :: r) k = if k1 == k then some v1 else recordGet r k := by
  simp only [recordGet, List.find?]
  split <;> rename_i h <;> simp_all

theorem recordGet_nil (k : String) : recordGet [] k = none := rfl

/-- The upstream header set exactly as claim C4 enumerates it: the
credential per auth style, the client content-type when present (and
non-empty, the truthiness test of the source), the passthrough headers
the client supplied, and the default `anthropic-version` when the client
omitted it on an anthropic request.  Nothing else — in particular the
client host, authorization and x-api-key headers never occur. -/
def expectedUpstreamHeaders (name : String) (config : ProviderConfig)
    (apiKey : String) (reqHeaders : List (String × String)) :
    List (String × String) :=
  (match config.authStyle with
   | .bearer => [("Authorization", "Bearer " ++ apiKey)]
   | .xApiKey => [("x-api-key", apiKey)]
   | .xGoogApiKey => [("x-goog-api-key", apiKey)]) ++
  (match recordGet reqHeaders "content-type" with
   | some v => if v ≠ "" then [("content-type", v)] else []
   | none => []) ++
  (config.passthroughHeaders.filterMap (fun h =>
    match recordGet reqHeaders (jsToLower h) with
    | some v => if v ≠ "" then some (h, v) else none
    | none => none)) ++
  (if name == "anthropic" && ((recordGet reqHeaders "anthropic-version").getD "" == "")
   then [("anthropic-version", "2023-06-01")] else [])

/-- Claim C4: for every registered provider the header record sent
upstream equals the claimed enumeration exactly, for every client header
list and key. -/
theorem upstream_headers_exact (name : String) (config : ProviderConfig)
    (hmem : (name, config) ∈ PROVIDERS) (apiKey : String)
    (reqHeaders : List (String × String)) :
    buildUpstreamHeaders config name apiKey reqHeaders =
      expectedUpstreamHeaders name config apiKey reqHeaders := by
  have hv : jsToLower "anthropic-version" = "anthropic-version" := rfl
  have hb : jsToLower "anthropic-beta" = "anthropic-beta" := rfl
  simp only [PROVIDERS, List.mem_cons, List.mem_singleton, List.not_mem_nil,
    or_false] at hmem
  rcases hmem with h | h | h | h | h | h | h | h <;>
    (rw [Prod.mk.injEq] at h; obtain ⟨rfl, rfl⟩ := h) <;>
    rcases hct : recordGet reqHeaders "content-type" with _ | cv <;>
    rcases hav : recordGet reqHeaders "anthropic-version" with _ | av <;>
    rcases hab : recordGet reqHeaders "anthropic-beta" with _ | bv <;>
    (try by_cases hcv : cv = "") <;>
    (try by_cases hav2 : av = "") <;>
    (try by_cases hab2 : bv = "") <;>
    simp only [buildUpstreamHeaders, expectedUpstreamHeaders, injectAuth,
      copyContentType, copyPassthrough, applyAnthropicDefault, hct, hav, hab,
      hv, hb, List.foldl_cons, List.foldl_nil, List.filterMap_cons,
      List.filterMap_nil] <;>
    simp_all [recordSet, recordGet_cons, recordGet_nil]

/-- Witness for C4: an anthropic request whose client supplied host,
authorization and x-api-key headers — none of them are copied; the
credential, content-type, passthrough beta header and defaulted version
are exactly the record built. -/
theorem upstream_headers_exact_witness :
    buildUpstreamHeaders ⟨"https://api.anthropic.com", .xApiKey,
        ["anthropic-version", "anthropic-beta"]⟩ "anthropic" "sk-ant-TEST"
      [("host", "localhost:9999"), ("authorization", "Bearer client-creds"),
       ("x-api-key", "client-key"), ("content-type", "application/json"),
       ("anthropic-beta", "tools-2024")] =
      [("x-api-key", "sk-ant-TEST"), ("content-type", "application/json"),
       ("anthropic-beta", "tools-2024"), ("anthropic-version", "2023-06-01")] :=
  (upstream_headers_exact "anthropic" ⟨"https://api.anthropic.com", .xApiKey,
      ["anthropic-version", "anthropic-beta"]⟩ (by decide) "sk-ant-TEST"
    [("host", "localhost:9999"), ("authorization", "Bearer client-creds"),
     ("x-api-key", "client-key"), ("content-type", "application/json"),
     ("anthropic-beta", "tools-2024")]).trans (by decide)

/-! ## Claim C1 -/

def infixOf (n : List Char) : List Char → Bool
  | [] => startsWithChars n []
  | x :: xs => startsWithChars n (x :: xs) || infixOf n xs

def occursIn (needle haystack : String) : Bool :=
  infixOf needle.data haystack.data

/-- Two adapter results are aligned when they succeed together (with any
values) or fail together with the same message. -/
def keystoreResultAligned : Except String String → Except String String → Prop
  | .ok _, .ok _ => True
  | .error m1, .error m2 => m1 = m2
  | _, _ => False

/-- Counterexample to C1 as stated: on the credential endpoint the
secret read from the store during the request is written verbatim into
the response body (this is the documented purpose of that route, but it
contradicts the unqualified claim that credential bytes appear in no
response body written by the proxy). -/
theorem credential_confinement_counterexample :
    (handleRequest ⟨9999⟩ envGithubToken
      ⟨"127.0.0.1", "GET", "/agentauth/credential/github",
       "/agentauth/credential/github", "", [], []⟩).events =
      [.keystoreRead "github" true] ∧
    (handleRequest ⟨9999⟩ envGithubToken
      ⟨"127.0.0.1", "GET", "/agentauth/credential/github",
       "/agentauth/credential/github", "", [], []⟩).res.chunks =
      ["\x7b\"token\":\"ghp_testtoken123\"\x7d"] ∧
    occursIn "ghp_testtoken123" "\x7b\"token\":\"ghp_testtoken123\"\x7d" = true :=
  ⟨by decide, by decide, by decide⟩

/-- Claim C1 as amended: the credential influences neither the log lines
nor the response status line and headers of any request, nor the response
body of any route other than the credential endpoint: two environments
whose keystores are aligned (reads succeed and fail identically, with
identical failure messages) but may store different secret values produce
identical logs, identical status and headers, and — off the credential
route — identical bodies. -/
theorem credential_noninterference (opts : StartOpts) (env1 env2 : Env)
    (req : Request)
    (hnow : env1.now = env2.now)
    (helapsed : env1.elapsedMs = env2.elapsedMs)
    (hfetch : env1.fetch = env2.fetch)
    (halign : ∀ p : String,
      keystoreResultAligned
        (readKeyFromKeychain env1.hasBiometricBin env1.keystore p).1
        (readKeyFromKeychain env2.hasBiometricBin env2.keystore p).1) :
    (handleRequest opts env1 req).logs = (handleRequest opts env2 req).logs ∧
    (handleRequest opts env1 req).res.statusSent
      = (handleRequest opts env2 req).res.statusSent ∧
    (credRoute req.pathname = none →
      (handleRequest opts env1 req).res.chunks
        = (handleRequest opts env2 req).res.chunks) := by
  cases hip : isAllowedIP
      (if req.remoteAddress == "" then "unknown" else req.remoteAddress)
  · simp only [beq_iff_eq] at hip
    simp [handleRequest, hip, hnow]
  · simp only [beq_iff_eq] at hip
    by_cases hh : req.pathname = "/agentauth/health"
    · simp [handleRequest, hip, hh, hnow]
    · by_cases hp : req.pathname = "/agentauth/providers"
      · simp [handleRequest, hip, hh, hp]
      · rcases hcr : credRoute req.pathname with _ | id
        · rcases hmp : matchProviderRoute req.pathname with _ | ⟨name, config, up⟩
          · simp [handleRequest, hip, hh, hp, hcr, hmp, hnow]
          · have ha := halign name
            rcases hr1 : readKeyFromKeychain env1.hasBiometricBin env1.keystore name
              with ⟨r1, c1⟩
            rcases hr2 : readKeyFromKeychain env2.hasBiometricBin env2.keystore name
              with ⟨r2, c2⟩
            rw [hr1, hr2] at ha
            simp only at ha
            cases r1 <;> cases r2 <;> simp [keystoreResultAligned] at ha <;>
              rcases hfe : env1.fetch with resp | msg2 <;>
              simp [handleRequest, hip, hh, hp, hcr, hmp, proxyRequest, hr1, hr2,
                hfe, hfetch.symm.trans hfe, hnow, helapsed, ha]
        · have ha := halign id
          rcases hr1 : readKeyFromKeychain env1.hasBiometricBin env1.keystore id
            with ⟨r1, c1⟩
          rcases hr2 : readKeyFromKeychain env2.hasBiometricBin env2.keystore id
            with ⟨r2, c2⟩
          rw [hr1, hr2] at ha
          simp only at ha
          cases r1 <;> cases r2 <;> simp [keystoreResultAligned] at ha <;>
            simp [handleRequest, hip, hh, hp, hcr, hr1, hr2, hnow, ha, resEnd,
              resWriteHead, res0]

def envSecretOne : Env :=
  ⟨"2026-01-01T00:00:00.000Z", 5, false, stubKeystore "sk-SECRET-ONE", .ok stubResponse⟩
def envSecretTwo : Env :=
  ⟨"2026-01-01T00:00:00.000Z", 5, false, stubKeystore "sk-SECRET-TWO", .ok stubResponse⟩
/-- Witness for the amended C1: two environments storing different
secrets produce identical logs, status, headers and body for a proxied
openai request. -/
theorem credential_noninterference_witness :
    (handleRequest ⟨9999⟩ envSecretOne
      ⟨"127.0.0.1", "POST", "/openai/v1/chat/completions",
       "/openai/v1/chat/completions", "", [], ["\x7b\x7d"]⟩).logs =
    (handleRequest ⟨9999⟩ envSecretTwo
      ⟨"127.0.0.1", "POST", "/openai/v1/chat/completions",
       "/openai/v1/chat/completions", "", [], ["\x7b\x7d"]⟩).logs ∧
    (handleRequest ⟨9999⟩ envSecretOne
      ⟨"127.0.0.1", "POST", "/openai/v1/chat/completions",
       "/openai/v1/chat/completions", "", [], ["\x7b\x7d"]⟩).res.statusSent =
    (handleRequest ⟨9999⟩ envSecretTwo
      ⟨"127.0.0.1", "POST", "/openai/v1/chat/completions",
       "/openai/v1/chat/completions", "", [], ["\x7b\x7d"]⟩).res.statusSent ∧
    (credRoute "/openai/v1/chat/completions" = none →
      (handleRequest ⟨9999⟩ envSecretOne
        ⟨"127.0.0.1", "POST", "/openai/v1/chat/completions",
         "/openai/v1/chat/completions", "", [], ["\x7b\x7d"]⟩).res.chunks =
      (handleRequest ⟨9999⟩ envSecretTwo
        ⟨"127.0.0.1", "POST", "/openai/v1/chat/completions",
         "/openai/v1/chat/completions", "", [], ["\x7b\x7d"]⟩).res.chunks) :=
  credential_noninterference ⟨9999⟩ envSecretOne envSecretTwo
    ⟨"127.0.0.1", "POST", "/openai/v1/chat/completions",
     "/openai/v1/chat/completions", "", [], ["\x7b\x7d"]⟩
    rfl rfl rfl (fun _ => trivial)

/-! ## Claim C6 -/

/-- Standard CIDR membership test named by the claim:
`(addr & mask) == (entry.addr & mask)`. -/
def inCidr (a net mask : Nat) : Bool := a &&& mask == net &&& mask

/-- Claim-side helper: correct 16-bit group values of an IPv6 segment
list, with an embedded dotted quad contributing its two true groups. -/
def ipv6GroupVals (parts : List (List Char)) : Option (List Nat) :=
  match parts with
  | [] => some []
  | [g] =>
    if g.contains '.' then
      match jsSplitChar '.' g with
      | [a, b, c, d] =>
        if validOctet a && validOctet b && validOctet c && validOctet d then
          some [decimalVal a * 256 + decimalVal b, decimalVal c * 256 + decimalVal d]
        else none
      | _ => none
    else if validHexGroup g then some [(jsParseIntHex g).getD 0] else none
  | g :: rest =>
    if validHexGroup g then (ipv6GroupVals rest).map ((jsParseIntHex g).getD 0 :: ·)
    else none

/-- Claim-side definition: the true RFC 4291 numeric value of an IPv6
text address (what the listed CIDR notation denotes), as opposed to the
value the source computes. -/
def ipv6Value (s : String) : Option Nat :=
  if netIsIPv6 s then
    let l := s.data
    let lr :=
      if hasColonColon l then
        ((splitColonColon l).headD [], (splitColonColon l).tail.headD [])
      else (l, [])
    let leftParts :=
      if hasColonColon l then
        (if lr.1 = [] then [] else jsSplitChar ':' lr.1)
      else jsSplitChar ':' l
    let rightParts :=
      if hasColonColon l then
        (if lr.2 = [] then [] else jsSplitChar ':' lr.2)
      else []
    match ipv6GroupVals leftParts, ipv6GroupVals rightParts with
    | some a, some b =>
      let full := a ++ List.replicate (8 - a.length - b.length) 0 ++ b
      some (full.foldl (fun acc v => acc * 65536 + v) 0)
    | _, _ => none
  else none

/-- Claim C6 as stated: after stripping a leading `::ffff:`, the address
lies within one of the six listed CIDRs, read with their standard
numeric values, against an entry of its family. -/
def claimAllowed (s : String) : Bool :=
  let raw := dropMappedV6 s
  (netIsIPv4 raw &&
    (inCidr (ipToBigIntV4 raw) 0x7f000000 0xff000000 ||
     inCidr (ipToBigIntV4 raw) 0x0a000000 0xff000000 ||
     inCidr (ipToBigIntV4 raw) 0xc0a80000 0xffff0000 ||
     inCidr (ipToBigIntV4 raw) 0xac100000 0xfff00000)) ||
  (netIsIPv6 s &&
    (match ipv6Value s with
     | some a => inCidr a 1 (2 ^ 128 - 1) || inCidr a 0xffff7f000000 (2 ^ 128 - 2 ^ 24)
     | none => false))

/-- Counterexample to C6 as stated: `::ffff:8.8.8.8` is allowed by the
code although it lies in none of the six listed CIDRs — its true value
is `0xffff08080808`, outside `::ffff:127.0.0.0/104`, and its stripped v4
form `8.8.8.8` is in no v4 range.  The cause: `parseInt(part, 16)` stops
at the first dot, so the `::ffff:127.0.0.0/104` entry is stored as
`0xffff0127`, whose masked value `0xff000000` matches every address the
code parses from a `::ffff:` dotted string. -/
theorem allowlist_claim_counterexample :
    isAllowedIP "::ffff:8.8.8.8" = true ∧
    claimAllowed "::ffff:8.8.8.8" = false ∧
    ipv6Value "::ffff:8.8.8.8" = some 0xffff08080808 :=
  ⟨by decide, by decide, by decide⟩

/-- Claim C6 as amended: the same characterization but against the
entries the code actually built — the four v4 CIDRs with their correct
masked values, `::1/128`, and the mis-parsed `/104` entry whose masked
value is `0xff000000`. -/
def amendedAllowed (s : String) : Bool :=
  if s == "" then false
  else
    let raw := dropMappedV6 s
    (netIsIPv4 raw &&
      (inCidr (ipToBigIntV4 raw) 0x7f000000 0xff000000 ||
       inCidr (ipToBigIntV4 raw) 0x0a000000 0xff000000 ||
       inCidr (ipToBigIntV4 raw) 0xc0a80000 0xffff0000 ||
       inCidr (ipToBigIntV4 raw) 0xac100000 0xfff00000)) ||
    ((netIsIPv6 s || startsWithChars "::ffff:".data s.data) &&
      (match ipToBigIntV6 s with
       | some a => inCidr a 1 (2 ^ 128 - 1) ||
           a &&& (2 ^ 128 - 2 ^ 24) == 0xff000000
       | none => false))

/-- The allowlist decision procedure equals the amended
characterization on every input string. -/
theorem isAllowedIP_eq_amended (s : String) : isAllowedIP s = amendedAllowed s := by
  unfold isAllowedIP amendedAllowed
  cases hs : s == ""
  · have hr : allowedRanges =
        [⟨0x7f000000, 0xff000000, 32⟩, ⟨1, 2 ^ 128 - 1, 128⟩,
         ⟨0xffff0127, 2 ^ 128 - 2 ^ 24, 128⟩, ⟨0x0a000000, 0xff000000, 32⟩,
         ⟨0xc0a80000, 0xffff0000, 32⟩, ⟨0xac100000, 0xfff00000, 32⟩] := by decide
    rw [hr]
    simp only [Bool.false_eq_true, if_neg, reduceIte, List.any_cons, List.any_nil,
      Bool.or_false, rangeMatches, inCidr]
    cases hv4 : netIsIPv4 (dropMappedV6 s) <;>
      cases hv6 : (netIsIPv6 s || startsWithChars "::ffff:".data s.data) <;>
      rcases hp6 : ipToBigIntV6 s with _ | a <;>
      simp [hv4, hv6, hp6] <;>
      apply Bool.eq_iff_iff.mpr <;>
      simp [Bool.or_eq_true] <;>
      constructor <;> intro h <;> tauto
  · simp

theorem jsSplitChar_ne_nil (c : Char) (l : List Char) : jsSplitChar c l ≠ [] := by
  cases l with
  | nil => simp [jsSplitChar]
  | cons x xs =>
    simp only [jsSplitChar]
    split <;> (try split) <;> simp

theorem jsSplitChar_sepfree (c : Char) (l : List Char)
    (h : ∀ x ∈ l, x ≠ c) : jsSplitChar c l = [l] := by
  induction l with
  | nil => rfl
  | cons x xs ih =>
    have hx : x ≠ c := h x (by simp)
    have ihh := ih (fun y hy => h y (by simp [hy]))
    simp only [jsSplitChar, ihh]
    simp [hx]

theorem jsSplitChar_append_sep (c : Char) (a b : List Char)
    (ha : ∀ x ∈ a, x ≠ c) : jsSplitChar c (a ++ c :: b) = a :: jsSplitChar c b := by
  induction a with
  | nil =>
    simp only [List.nil_append, jsSplitChar]
    rcases hsb : jsSplitChar c b with _ | ⟨h, t⟩
    · exact absurd hsb (jsSplitChar_ne_nil c b)
    · simp
  | cons x xs ih =>
    have hx : x ≠ c := ha x (by simp)
    have ihh := ih (fun y hy => ha y (by simp [hy]))
    simp only [List.cons_append, jsSplitChar, List.append_eq]
    rw [ihh]
    simp [hx]

theorem splitColonColon_cons_cons (rest : List Char) :
    splitColonColon (':' :: ':' :: rest) = [] :: splitColonColon rest := by
  cases rest <;> simp [splitColonColon]

theorem hasColonColon_two_false (x y : Char) (rest : List Char)
    (h : hasColonColon (x :: y :: rest) = false) :
    ((x = ':' ∧ y = ':') → False) ∧ hasColonColon (y :: rest) = false := by
  simp only [hasColonColon, Bool.or_eq_false_iff, Bool.and_eq_false_iff] at h
  constructor
  · rintro ⟨rfl, rfl⟩
    rcases h.1 with h1 | h1 <;> simp at h1
  · exact h.2

theorem splitColonColon_no_cc :
    ∀ l : List Char, hasColonColon l = false → splitColonColon l = [l]
  | [], _ => rfl
  | [x], _ => rfl
  | x :: y :: rest, h => by
    obtain ⟨hne, htail⟩ := hasColonColon_two_false x y rest h
    have ih := splitColonColon_no_cc (y :: rest) htail
    rw [splitColonColon.eq_def]
    simp only [ih]
    have hcond : (x = ':' && y = ':') = false := by
      by_cases hx : x = ':'
      · by_cases hy : y = ':'
        · exact absurd ⟨hx, hy⟩ hne
        · simp [hy]
      · simp [hx]
    rw [hcond]
    simp

theorem takeWhile_append_stop {α : Type} (p : α → Bool) (a : List α) (x : α)
    (b : List α) (ha : ∀ y ∈ a, p y = true) (hx : p x = false) :
    (a ++ x :: b).takeWhile p = a := by
  induction a with
  | nil => simp [List.takeWhile, hx]
  | cons y ys ih =>
    have hy : p y = true := ha y (by simp)
    have ihh := ih (fun z hz => ha z (by simp [hz]))
    simp [List.takeWhile, hy, ihh]

theorem netIsIPv4_inv (s : String) (h : netIsIPv4 s = true) :
    ∃ p1 p2 p3 p4, jsSplitChar '.' s.data = [p1, p2, p3, p4] ∧
      validOctet p1 = true ∧ validOctet p2 = true ∧
      validOctet p3 = true ∧ validOctet p4 = true := by
  unfold netIsIPv4 at h
  split at h
  · rename_i a b c d heq
    simp only [Bool.and_eq_true] at h
    exact ⟨a, b, c, d, heq, h.1.1.1, h.1.1.2, h.1.2, h.2⟩
  · exact absurd h (by simp)

theorem intercalate_jsSplitChar (c : Char) (l : List Char) :
    intercalateChar c (jsSplitChar c l) = l := by
  induction l with
  | nil => rfl
  | cons x xs ih =>
    simp only [jsSplitChar]
    rcases hs : jsSplitChar c xs with _ | ⟨hd, t⟩
    · exact absurd hs (jsSplitChar_ne_nil c xs)
    · rw [hs] at ih
      by_cases hx : x = c
      · subst hx
        simp only [if_pos rfl]
        simpa [intercalateChar] using ih
      · simp only [if_neg hx]
        cases t with
        | nil => simpa [intercalateChar] using congrArg (x :: ·) ih
        | cons t1 ts => simpa [intercalateChar] using congrArg (x :: ·) ih

theorem isDigitChar_ne_colon (x : Char) (h : isDigitChar x = true) : x ≠ ':' := by
  intro he
  subst he
  simp [isDigitChar] at h

theorem isDigitChar_isHex (x : Char) (h : isDigitChar x = true) :
    isHexDigitChar x = true := by
  simp only [isDigitChar, Bool.and_eq_true, decide_eq_true_eq] at h
  simp [isHexDigitChar]
  omega

theorem validOctet_ne_nil (l : List Char) (h : validOctet l = true) : l ≠ [] := by
  simp only [validOctet, Bool.and_eq_true] at h
  simpa using h.1.1.1.1

theorem validOctet_digits (l : List Char) (h : validOctet l = true) :
    ∀ x ∈ l, isDigitChar x = true := by
  simp only [validOctet, Bool.and_eq_true, List.all_eq_true] at h
  exact fun x hx => h.1.1.2 x hx

theorem validOctet_len3 (l : List Char) (h : validOctet l = true) : l.length ≤ 3 := by
  simp only [validOctet, Bool.and_eq_true] at h
  simpa using h.1.1.1.2

theorem hexDigitVal_le (x : Char) : hexDigitVal x ≤ 15 := by
  unfold hexDigitVal
  split <;> rename_i h1
  · simp only [Bool.and_eq_true, decide_eq_true_eq] at h1
    omega
  · split <;> rename_i h2
    · simp only [Bool.and_eq_true, decide_eq_true_eq] at h2
      omega
    · split <;> rename_i h3
      · simp only [Bool.and_eq_true, decide_eq_true_eq] at h3
        omega
      · omega

theorem hexFold_lt (l : List Char) :
    l.foldl (fun acc c => acc * 16 + hexDigitVal c) 0 < 16 ^ l.length := by
  have key : ∀ (l : List Char) (acc : Nat),
      l.foldl (fun acc c => acc * 16 + hexDigitVal c) acc < (acc + 1) * 16 ^ l.length := by
    intro l
    induction l with
    | nil => intro acc; simp
    | cons x xs ih =>
      intro acc
      have hx : hexDigitVal x ≤ 15 := hexDigitVal_le x
      calc (x :: xs).foldl (fun acc c => acc * 16 + hexDigitVal c) acc
          = xs.foldl (fun acc c => acc * 16 + hexDigitVal c) (acc * 16 + hexDigitVal x) := rfl
        _ < (acc * 16 + hexDigitVal x + 1) * 16 ^ xs.length := ih _
        _ ≤ ((acc + 1) * 16) * 16 ^ xs.length := by
            have : acc * 16 + hexDigitVal x + 1 ≤ (acc + 1) * 16 := by omega
            exact Nat.mul_le_mul_right _ this
        _ = (acc + 1) * 16 ^ (x :: xs).length := by
            simp [List.length_cons, Nat.pow_succ]
            ring
  simpa using key l 0

theorem hasColonColon_no_colon :
    ∀ l : List Char, (∀ x ∈ l, x ≠ ':') → hasColonColon l = false
  | [], _ => rfl
  | [_], _ => rfl
  | x :: y :: rest, h => by
    have hx : x ≠ ':' := h x (by simp)
    have ih := hasColonColon_no_colon (y :: rest) (fun z hz => h z (by simp_all))
    simp [hasColonColon, hx, ih]

theorem hasColonColon_colon_front (l : List Char) (h : ∀ x ∈ l, x ≠ ':') :
    hasColonColon (':' :: l) = false := by
  cases l with
  | nil => rfl
  | cons y ys =>
    have hy : y ≠ ':' := h y (by simp)
    have := hasColonColon_no_colon (y :: ys) h
    simp [hasColonColon, hy]
    simp [hasColonColon] at this
    exact this

theorem mapped_masked (v : Nat) (hv : v < 4096) :
    ((65535 <<< 16) ||| v) &&& (2 ^ 128 - 2 ^ 24) = 0xff000000 := by
  have h1 : (2 : Nat) ^ 128 - 2 ^ 24 = (2 ^ 104 - 1) <<< 24 := by decide
  have h2 : (0xff000000 : Nat) = (2 ^ 8 - 1) <<< 24 := by decide
  have h3 : (65535 : Nat) = 2 ^ 16 - 1 := by decide
  apply Nat.eq_of_testBit_eq
  intro i
  rw [h1, h2, h3, Nat.testBit_land, Nat.testBit_lor, Nat.testBit_shiftLeft,
    Nat.testBit_shiftLeft, Nat.testBit_shiftLeft, Nat.testBit_two_pow_sub_one,
    Nat.testBit_two_pow_sub_one, Nat.testBit_two_pow_sub_one]
  by_cases ha : 24 ≤ i
  · by_cases hb : i < 32
    · have e1 : 16 ≤ i := by omega
      have e2 : i - 16 < 16 := by omega
      have e3 : i - 24 < 104 := by omega
      have e4 : i - 24 < 8 := by omega
      simp [ha, hb, e1, e2, e3, e4]
    · have e2 : ¬(i - 16 < 16) := by omega
      have e4 : ¬(i - 24 < 8) := by omega
      have hvb : v.testBit i = false := by
        apply Nat.testBit_eq_false_of_lt
        calc v < 4096 := hv
          _ = 2 ^ 12 := by decide
          _ ≤ 2 ^ i := Nat.pow_le_pow_right (by decide) (by omega)
      simp [e2, e4, hvb]
  · have e4 : ¬(24 ≤ i) := ha
    simp [e4]

theorem mapped_facts (s : String) (h : netIsIPv4 s = true) :
    (∀ x ∈ s.data, x ≠ ':') ∧ 4 ≤ s.data.length ∧ '.' ∈ s.data ∧
      ∃ p1 rest, s.data = p1 ++ '.' :: rest ∧ p1 ≠ [] ∧
        (∀ x ∈ p1, isHexDigitChar x = true) ∧ p1.length ≤ 3 := by
  obtain ⟨p1, p2, p3, p4, hsplit, h1, h2, h3, h4⟩ := netIsIPv4_inv s h
  have hsdata : s.data = p1 ++ '.' :: (p2 ++ '.' :: (p3 ++ '.' :: p4)) := by
    conv_lhs => rw [← intercalate_jsSplitChar '.' s.data]
    rw [hsplit]
    simp [intercalateChar]
  have hdig : ∀ x ∈ s.data, isDigitChar x = true ∨ x = '.' := by
    intro x hx
    rw [hsdata] at hx
    simp only [List.mem_append, List.mem_cons] at hx
    rcases hx with hx | hx | hx
    · exact Or.inl (validOctet_digits p1 h1 x hx)
    · exact Or.inr hx
    · rcases hx with hx | hx | hx
      · exact Or.inl (validOctet_digits p2 h2 x hx)
      · exact Or.inr hx
      · rcases hx with hx | hx | hx
        · exact Or.inl (validOctet_digits p3 h3 x hx)
        · exact Or.inr hx
        · exact Or.inl (validOctet_digits p4 h4 x hx)
  refine ⟨?_, ?_, ?_, p1, p2 ++ '.' :: (p3 ++ '.' :: p4), hsdata,
    validOctet_ne_nil p1 h1, ?_, validOctet_len3 p1 h1⟩
  · intro x hx
    rcases hdig x hx with hd | hd
    · exact isDigitChar_ne_colon x hd
    · subst hd; decide
  · rw [hsdata]
    have l1 : 1 ≤ p1.length := by
      cases p1 with
      | nil => exact absurd rfl (validOctet_ne_nil [] h1)
      | cons a l => simp
    have l2 : 1 ≤ p2.length := by
      cases p2 with
      | nil => exact absurd rfl (validOctet_ne_nil [] h2)
      | cons a l => simp
    simp only [List.length_append, List.length_cons]
    omega
  · rw [hsdata]
    simp
  · intro x hx
    exact isDigitChar_isHex x (validOctet_digits p1 h1 x hx)

theorem netIsIPv6_mapped (s : String) (h : netIsIPv4 s = true) :
    netIsIPv6 ("::ffff:" ++ s) = true := by
  obtain ⟨hnc, hlen, hdot, p1, rest, hdecomp, hp1ne, hp1hex, hp1len⟩ := mapped_facts s h
  have hdata : ("::ffff:" ++ s).data
      = ':' :: ':' :: 'f' :: 'f' :: 'f' :: 'f' :: ':' :: s.data := rfl
  have htail : hasColonColon ('f' :: 'f' :: 'f' :: 'f' :: ':' :: s.data) = false := by
    simp only [hasColonColon]
    rw [hasColonColon_colon_front s.data hnc]
    simp
  have hcc : hasColonColon (("::ffff:" ++ s).data) = true := by
    rw [hdata]
    simp [hasColonColon]
  have hscc : splitColonColon (("::ffff:" ++ s).data)
      = [[], 'f' :: 'f' :: 'f' :: 'f' :: ':' :: s.data] := by
    rw [hdata, splitColonColon_cons_cons, splitColonColon_no_cc _ htail]
  have hjs : jsSplitChar ':' ('f' :: 'f' :: 'f' :: 'f' :: ':' :: s.data)
      = [['f', 'f', 'f', 'f'], s.data] := by
    have e := jsSplitChar_append_sep ':' ['f', 'f', 'f', 'f'] s.data (by decide)
    simp only [List.cons_append, List.nil_append] at e
    rw [e, jsSplitChar_sepfree ':' s.data hnc]
  have hcontains : s.data.contains '.' = true := by
    simpa using hdot
  simp only [netIsIPv6]
  rw [hcc, hscc]
  simp only [reduceIte, List.cons_ne_self, hjs]
  simp only [groupCount, hcontains, string_mk_data, h]
  simp
  decide

theorem ipToBigIntV6_mapped (s : String) (h : netIsIPv4 s = true) :
    ∃ v, ipToBigIntV6 ("::ffff:" ++ s) = some ((65535 <<< 16) ||| v) ∧ v < 4096 := by
  obtain ⟨hnc, hlen, hdot, p1, rest, hdecomp, hp1ne, hp1hex, hp1len⟩ := mapped_facts s h
  have hdata : ("::ffff:" ++ s).data
      = ':' :: ':' :: 'f' :: 'f' :: 'f' :: 'f' :: ':' :: s.data := rfl
  have htail : hasColonColon ('f' :: 'f' :: 'f' :: 'f' :: ':' :: s.data) = false := by
    simp only [hasColonColon]
    rw [hasColonColon_colon_front s.data hnc]
    simp
  have hjs : jsSplitChar ':' ('f' :: 'f' :: 'f' :: 'f' :: ':' :: s.data)
      = [['f', 'f', 'f', 'f'], s.data] := by
    have e := jsSplitChar_append_sep ':' ['f', 'f', 'f', 'f'] s.data (by decide)
    simp only [List.cons_append, List.nil_append] at e
    rw [e, jsSplitChar_sepfree ':' s.data hnc]
  have hlen0 : 4 - s.length = 0 := by
    have he : s.length = s.data.length := rfl
    omega
  have hpad : padStart4 s.data = s.data := by
    have he : s.data.length = s.length := rfl
    simp [padStart4, he, hlen0]
  have hexp : (expandIPv6 ("::ffff:" ++ s)).data =
      intercalateChar ':' [['0', '0', '0', '0'], ['0', '0', '0', '0'],
        ['0', '0', '0', '0'], ['0', '0', '0', '0'], ['0', '0', '0', '0'],
        ['0', '0', '0', '0'], ['f', 'f', 'f', 'f'], s.data] := by
    simp only [expandIPv6, hdata]
    rw [splitColonColon_cons_cons, splitColonColon_no_cc _ htail]
    simp only [hasColonColon, List.headD, List.tail]
    have he : s.data.length = s.length := rfl
    simp [hjs, hpad, List.replicate, padStart4, he, hlen0]
  have hsplitfull : jsSplitChar ':' (expandIPv6 ("::ffff:" ++ s)).data =
      [['0', '0', '0', '0'], ['0', '0', '0', '0'], ['0', '0', '0', '0'],
       ['0', '0', '0', '0'], ['0', '0', '0', '0'], ['0', '0', '0', '0'],
       ['f', 'f', 'f', 'f'], s.data] := by
    rw [hexp]
    simp only [intercalateChar]
    rw [jsSplitChar_append_sep ':' ['0', '0', '0', '0'] _ (by decide),
      jsSplitChar_append_sep ':' ['0', '0', '0', '0'] _ (by decide),
      jsSplitChar_append_sep ':' ['0', '0', '0', '0'] _ (by decide),
      jsSplitChar_append_sep ':' ['0', '0', '0', '0'] _ (by decide),
      jsSplitChar_append_sep ':' ['0', '0', '0', '0'] _ (by decide),
      jsSplitChar_append_sep ':' ['0', '0', '0', '0'] _ (by decide),
      jsSplitChar_append_sep ':' ['f', 'f', 'f', 'f'] _ (by decide),
      jsSplitChar_sepfree ':' s.data hnc]
  have hparse : jsParseIntHex s.data
      = some (p1.foldl (fun acc c => acc * 16 + hexDigitVal c) 0) := by
    unfold jsParseIntHex
    rw [hdecomp, takeWhile_append_stop _ p1 '.' rest hp1hex (by decide)]
    cases p1 with
    | nil => exact absurd rfl hp1ne
    | cons c cs => rfl
  refine ⟨p1.foldl (fun acc c => acc * 16 + hexDigitVal c) 0, ?_, ?_⟩
  · simp only [ipToBigIntV6, netIsIPv6_mapped s h, if_pos]
    rw [hsplitfull]
    have e0 : jsParseIntHex ['0', '0', '0', '0'] = some 0 := by decide
    have ef : jsParseIntHex ['f', 'f', 'f', 'f'] = some 65535 := by decide
    simp [List.foldlM, e0, ef, hparse]
  · calc p1.foldl (fun acc c => acc * 16 + hexDigitVal c) 0
        < 16 ^ p1.length := hexFold_lt p1
      _ ≤ 16 ^ 3 := Nat.pow_le_pow_right (by decide) hp1len
      _ = 4096 := by decide

/-- Every IPv4-mapped address in dotted form — `::ffff:a.b.c.d` for any
dotted quad, loopback or not — passes the allowlist. -/
theorem mapped_always_allowed (s : String) (h : netIsIPv4 s = true) :
    isAllowedIP ("::ffff:" ++ s) = true := by
  obtain ⟨v, hval, hvlt⟩ := ipToBigIntV6_mapped s h
  rw [isAllowedIP_eq_amended]
  have hne : (("::ffff:" ++ s) == "") = false := by
    rw [beq_eq_false_iff_ne]
    intro he
    have hd := congrArg String.data he
    rw [show ("::ffff:" ++ s).data
      = ':' :: ':' :: 'f' :: 'f' :: 'f' :: 'f' :: ':' :: s.data from rfl] at hd
    simp at hd
  have hsw : startsWithChars "::ffff:".data ("::ffff:" ++ s).data = true := rfl
  simp only [amendedAllowed, hne, Bool.false_eq_true, if_neg, reduceIte, hval, hsw]
  simp
  exact Or.inr (Or.inr (by simpa using mapped_masked v hvlt))

/-- Claim C6 as amended, in one statement: `isAllowedIP` is exactly the
amended characterization, and in particular every IPv4-mapped dotted
address (not only mapped loopback) is allowed. -/
theorem allowlist_characterization :
    (∀ s : String, isAllowedIP s = amendedAllowed s) ∧
    (∀ s : String, netIsIPv4 s = true → isAllowedIP ("::ffff:" ++ s) = true) :=
  ⟨isAllowedIP_eq_amended, mapped_always_allowed⟩

/-- Claim C6 as amended, in one statement: `isAllowedIP` is exactly the
amended characterization, and in particular every IPv4-mapped dotted
address (not only mapped loopback) is allowed. -/
theorem allowlist_characterization_witness :
    netIsIPv4 "8.8.8.8" = true ∧ isAllowedIP ("::ffff:" ++ "8.8.8.8") = true :=
  ⟨by decide, allowlist_characterization.2 "8.8.8.8" (by decide)⟩

end TheSystem
